import Mathlib

/-!
# Slipway: lifecycle tagging (Provisioner) and expiry reconciliation (Reclaimer)

A shallow embedding of `slipway/slipway.go` and `cull_the_devs/cull_the_devs.go`.

The two programs are direct calls against the Go standard library (`time`, `os/user`,
`fmt`) and the EC2 API.  The standard-library functions they call are modelled here as
executable Lean functions over lists of characters and integers; the EC2 provider is
modelled as a resource store queried through filters, with the answers of the mutating
calls supplied by an environment.
-/

namespace Slipway

/-! ## Go `time`: instants, locations, the RFC 3339 layout -/

/-- Go `*time.Location`: the zone offset (seconds east of UTC) in force at each instant,
given as Unix seconds. -/
abbrev Location := Int → Int

/-- Go `time.UTC`. -/
def UTC : Location := fun _ => 0

/-- Go `time.Time`: an instant (nanoseconds since 1970-01-01T00:00:00Z) and the location it is
displayed in. -/
structure Time where
  ns : Int
  loc : Location

/-- Nanoseconds in a second. -/
def nsPerSec : Int := 1000000000

/-- Go `Time.Unix`: whole seconds since the Unix epoch (rounded towards minus infinity). -/
def Time.unix (t : Time) : Int := t.ns / nsPerSec

/-- Unix seconds of 0001-01-01T00:00:00Z, the instant of Go's zero `time.Time{}`. -/
def zeroUnix : Int := -62135596800

/-- Go `time.Time{}`: January 1, year 1, 00:00:00 UTC. -/
def Time.zero : Time := { ns := zeroUnix * nsPerSec, loc := UTC }

/-- Go `Time.After`: `t` is strictly later than `u` (wall-clock instants). -/
def Time.After (t u : Time) : Bool := decide (u.ns < t.ns)

/-- Go `Time.Add`: the instant moves by `d` nanoseconds, the location is kept. -/
def Time.Add (t : Time) (d : Int) : Time := { ns := t.ns + d, loc := t.loc }

/-- Go `isLeap`. -/
def isLeap (year : Int) : Bool := year % 4 = 0 && (year % 100 ≠ 0 || year % 400 = 0)

/-- Go `daysIn`: the number of days of a month of a year. -/
def daysIn (month : Int) (year : Int) : Int :=
  if month = 2 then (if isLeap year then 29 else 28)
  else if month = 4 ∨ month = 6 ∨ month = 9 ∨ month = 11 then 30
  else 31

/-- Go `daysBefore[m]`: the days of a non-leap year before month `m + 1` begins. -/
def daysBefore (m : Int) : Int :=
  if m ≤ 0 then 0 else if m = 1 then 31 else if m = 2 then 59 else if m = 3 then 90
  else if m = 4 then 120 else if m = 5 then 151 else if m = 6 then 181 else if m = 7 then 212
  else if m = 8 then 243 else if m = 9 then 273 else if m = 10 then 304 else if m = 11 then 334
  else 365

/-- The first half of Go `absDate`: year and zero-based day of the year of a day number
counted from 0001-01-01, cutting off 400-, 100-, 4- and 1-year cycles. -/
def absYearDay (d0 : Int) : Int × Int :=
  let n400 := d0 / 146097
  let d1 := d0 % 146097
  let n100 := min (d1 / 36524) 3
  let d2 := d1 - 36524 * n100
  let n4 := d2 / 1461
  let d3 := d2 % 1461
  let n1 := min (d3 / 365) 3
  let d4 := d3 - 365 * n1
  (400 * n400 + 100 * n100 + 4 * n4 + n1 + 1, d4)

/-- The second half of Go `absDate`: month and day of the month from the year and the
zero-based day of the year. -/
def monthDay (year yday : Int) : Int × Int :=
  if isLeap year ∧ yday = 31 + 29 - 1 then (2, 29)
  else
    let day := if isLeap year ∧ yday > 31 + 29 - 1 then yday - 1 else yday
    let month := day / 31
    let e := daysBefore (month + 1)
    if day ≥ e then (month + 2, day - e + 1) else (month + 1, day - daysBefore month + 1)

/-- Go `absDate`: the civil date (year, month 1..12, day 1..31) of a day number counted from
0001-01-01. -/
def absDate (d0 : Int) : Int × Int × Int :=
  let yd := absYearDay d0
  let md := monthDay yd.1 yd.2
  (yd.1, md.1, md.2)

/-- Go `daysSinceEpoch`: the days from 0001-01-01 to January 1 of `year`. -/
def daysSinceEpoch (year : Int) : Int :=
  let y := year - 1
  let n400 := y / 400
  let y1 := y % 400
  let n100 := y1 / 100
  let y2 := y1 % 100
  let n4 := y2 / 4
  let y3 := y2 % 4
  146097 * n400 + 36524 * n100 + 1461 * n4 + 365 * y3

/-- The day count of Go `Date`: the day number counted from 0001-01-01 of a civil date. -/
def dateToDays (year month day : Int) : Int :=
  daysSinceEpoch year + daysBefore (month - 1) +
    (if isLeap year ∧ month ≥ 3 then 1 else 0) + (day - 1)

/-- Days from 0001-01-01 to 1970-01-01. -/
def unixEpochDays : Int := 719162

/-- The decimal digit character of a number below ten. -/
def digitChar (n : Nat) : Char := Char.ofNat (48 + n % 10)

/-- The decimal digits of `n`, least significant first, at least `width` of them
(`fuel` bounds the number of digits written). -/
def digitsRev : Nat → Nat → Nat → List Char
  | 0, _, _ => []
  | fuel + 1, width, n =>
    if n < 10 ∧ width ≤ 1 then [digitChar n]
    else digitChar n :: digitsRev fuel (width - 1) (n / 10)

/-- Go `appendInt` of package `time`: decimal, zero-padded to `width`, with a leading minus
sign for a negative number. -/
def appendInt (x : Int) (width : Nat) : List Char :=
  let u := x.natAbs
  let ds := (digitsRev (u + width + 1) width u).reverse
  if x < 0 then '-' :: ds else ds

/-- The zone suffix of layout element `Z07:00`: `Z` for UTC, otherwise sign, hours and
minutes of the offset (whole minutes, the seconds of the offset are dropped). -/
def formatZone (offset : Int) : List Char :=
  if offset = 0 then ['Z']
  else
    let zone := Int.tdiv offset 60
    let sign := if zone < 0 then '-' else '+'
    let z := if zone < 0 then -zone else zone
    sign :: (appendInt (z / 60) 2 ++ ':' :: appendInt (z % 60) 2)

/-- Go `Time.Format(time.RFC3339)`, layout `2006-01-02T15:04:05Z07:00`. -/
def Time.FormatRFC3339 (t : Time) : String :=
  let offset := t.loc t.unix
  let loc := t.unix + offset
  let days := loc / 86400
  let rem := loc % 86400
  let ymd := absDate (days + unixEpochDays)
  String.mk (appendInt ymd.1 4 ++ '-' :: appendInt ymd.2.1 2 ++ '-' :: appendInt ymd.2.2 2 ++ 'T' ::
    appendInt (rem / 3600) 2 ++ ':' :: appendInt (rem % 3600 / 60) 2 ++ ':' ::
    appendInt (rem % 60) 2 ++ formatZone offset)

/-- The value of a decimal digit character, if it is one. -/
def digitVal (c : Char) : Option Nat :=
  if '0' ≤ c ∧ c ≤ '9' then some (c.toNat - 48) else none

/-- Exactly `n` leading decimal digits read as a number, and the rest of the input. -/
def takeDigits : Nat → List Char → Option (Nat × List Char)
  | 0, cs => some (0, cs)
  | n + 1, cs =>
    match takeDigits n cs with
    | some (v, c :: rest) =>
      match digitVal c with
      | some d => some (10 * v + d, rest)
      | none => none
    | _ => none

/-- Go `getnum`: the first one or two characters of `s` read as a decimal number, and the
rest of the input; `fixed` demands two digits.  Without `fixed`, a single digit followed
by another character or by the end of the input is the number. -/
def getnum (s : List Char) (fixed : Bool) : Option (Nat × List Char) :=
  match s with
  | [] => none
  | c0 :: rest0 =>
    match digitVal c0 with
    | none => none
    | some d0 =>
      match rest0 with
      | [] => if fixed then none else some (d0, rest0)
      | c1 :: rest1 =>
        match digitVal c1 with
        | some d1 => some (d0 * 10 + d1, rest1)
        | none => if fixed then none else some (d0, rest0)

/-- The digits of a fractional second: the first `k` of them are the decimal places down to
the nanosecond, added to `acc`; further digits are read over.  Returns the nanoseconds and
the rest of the input. -/
def fracDigits : Nat → Nat → List Char → Nat × List Char
  | _, acc, [] => (acc, [])
  | k, acc, c :: cs =>
    match digitVal c with
    | some d => fracDigits (k - 1) (if k = 0 then acc else acc + d * 10 ^ (k - 1)) cs
    | none => (acc, c :: cs)

/-- The fractional second that the parser accepts after the seconds field although the
layout has none: a period or comma followed by at least one digit.  Returns the nanoseconds
and the rest of the input. -/
def parseFraction : List Char → Nat × List Char
  | c :: d :: cs =>
    if (c = '.' ∨ c = ',') ∧ (digitVal d).isSome then fracDigits 9 0 (d :: cs)
    else (0, c :: d :: cs)
  | cs => (0, cs)

/-- The zone suffix `Z07:00` read back: `Z`, or a sign with two-digit hours and minutes
(hours at most 24, minutes at most 60); the offset in seconds.  Nothing may follow. -/
def parseZone : List Char → Option Int
  | ['Z'] => some 0
  | s :: cs =>
    if s = '+' ∨ s = '-' then
      match getnum cs true with
      | some (hh, ':' :: cs1) =>
        match getnum cs1 true with
        | some (mm, []) =>
          if hh ≤ 24 ∧ mm ≤ 60 then
            some (if s = '-' then -(((hh * 60 + mm) * 60 : Nat) : Int) else ((hh * 60 + mm) * 60 : Nat))
          else none
        | _ => none
      | _ => none
    else none
  | [] => none

/-- Unix nanoseconds of a string that Go's `time.Parse` reads with the layout
`2006-01-02T15:04:05Z07:00`, or `none` when it returns an error.  The year has four digits;
month, day, minute and second have two (`getnum` with `fixed`); the hour has one or two
(`getnum` without `fixed`); a fractional second may follow the seconds; then the zone.  The
fields are checked for their ranges, the day against the length of the month. -/
def parseRFC3339Nanos (cs : List Char) : Option Int :=
  match takeDigits 4 cs with
  | some (year, '-' :: cs1) =>
    match getnum cs1 true with
    | some (month, '-' :: cs2) =>
      match getnum cs2 true with
      | some (day, 'T' :: cs3) =>
        match getnum cs3 false with
        | some (hour, ':' :: cs4) =>
          match getnum cs4 true with
          | some (minute, ':' :: cs5) =>
            match getnum cs5 true with
            | some (sec, cs6) =>
              match parseZone (parseFraction cs6).2 with
              | some off =>
                if 1 ≤ month ∧ month ≤ 12 ∧ 1 ≤ day ∧ (day : Int) ≤ daysIn month year ∧
                    hour < 24 ∧ minute < 60 ∧ sec < 60 then
                  some (((dateToDays year month day - unixEpochDays) * 86400 +
                    (hour * 3600 + minute * 60 + sec : Nat) - off) * nsPerSec +
                    (parseFraction cs6).1)
                else none
              | none => none
            | none => none
          | _ => none
        | _ => none
      | _ => none
    | _ => none
  | _ => none

/-- Go `time.Parse(time.RFC3339, value)`: the parsed time and whether an error is returned.
On an error the returned time is the zero `time.Time{}`. -/
def ParseRFC3339 (value : String) : Time × Bool :=
  match parseRFC3339Nanos value.data with
  | some n => ({ ns := n, loc := UTC }, false)
  | none => (Time.zero, true)

/-! ## EC2 resources and the provider -/

/-- An `ec2.Tag`. -/
structure Tag where
  Key : String
  Value : String
deriving DecidableEq

/-- An `ec2.Instance`: the fields the programs and the discovery filters read. -/
structure Instance where
  InstanceId : String
  StateName : String
  Tags : List Tag
deriving DecidableEq

/-- An `ec2.Reservation`. -/
structure Reservation where
  Instances : List Instance
deriving DecidableEq

/-- An `ec2.Address`, a floating IP: its allocation id, the instance it is associated with
(if any) and its own tags. -/
structure Address where
  AllocationId : String
  InstanceId : Option String
  Tags : List Tag
deriving DecidableEq

/-- An `ec2.Filter`. -/
structure Filter where
  Name : String
  Values : List String
deriving DecidableEq

/-- The tag list holds a tag with this key and this value. -/
def hasTag (tags : List Tag) (key value : String) : Bool :=
  tags.any fun t => decide (t.Key = key ∧ t.Value = value)

/-- The tag list holds a tag with this key. -/
def hasTagKey (tags : List Tag) (key : String) : Bool :=
  tags.any fun t => decide (t.Key = key)

/-- The provider's reading of one filter on an instance: `tag-key` (some tag key is among
the values), `instance-state-name`, `instance-id`, and `tag:<key>` (the tag `<key>` has one
of the values).  A filter the model does not know matches nothing. -/
def Filter.matchesInstance (f : Filter) (i : Instance) : Bool :=
  if f.Name = "tag-key" then i.Tags.any fun t => decide (t.Key ∈ f.Values)
  else if f.Name = "instance-state-name" then decide (i.StateName ∈ f.Values)
  else if f.Name = "instance-id" then decide (i.InstanceId ∈ f.Values)
  else
    match f.Name.data with
    | 't' :: 'a' :: 'g' :: ':' :: key =>
      i.Tags.any fun t => decide (t.Key = String.mk key ∧ t.Value ∈ f.Values)
    | _ => false

/-- The provider's reading of one filter on an address: `instance-id` (the address is
associated with one of the instances).  Other filters match nothing. -/
def Filter.matchesAddress (f : Filter) (a : Address) : Bool :=
  if f.Name = "instance-id" then
    match a.InstanceId with
    | some id => decide (id ∈ f.Values)
    | none => false
  else false

/-- The provider as one run of the Reclaimer meets it: the resource store, and for each call
whether the provider answers with an error. -/
structure Provider where
  reservations : List Reservation
  addresses : List Address
  describeInstancesFails : Bool
  describeAddressesFails : Bool
  terminateFails : List String → Bool
  waitTerminatedFails : List Filter → Bool
  releaseFails : String → Bool

/-- The provider's `DescribeInstances`: the reservations of the store cut down to the
instances that match every filter (`none` is an error). -/
def Provider.DescribeInstances (svc : Provider) (filters : List Filter) :
    Option (List Reservation) :=
  if svc.describeInstancesFails then none
  else some ((svc.reservations.map fun r =>
      ({ Instances := r.Instances.filter fun i => filters.all fun f => f.matchesInstance i }
        : Reservation)).filter
    fun r => !r.Instances.isEmpty)

/-- The provider's `DescribeAddresses`: the addresses of the store that match every filter
(`none` is an error). -/
def Provider.DescribeAddresses (svc : Provider) (filters : List Filter) :
    Option (List Address) :=
  if svc.describeAddressesFails then none
  else some (svc.addresses.filter fun a => filters.all fun f => f.matchesAddress a)

/-- A call made to the provider, in the order made. -/
inductive Call where
  | DescribeInstances (filters : List Filter)
  | DescribeAddresses (filters : List Filter)
  | TerminateInstances (ids : List String)
  | WaitUntilInstanceTerminated (filters : List Filter)
  | ReleaseAddress (allocationId : String)
deriving DecidableEq

/-- How a run ends: it reaches its last statement, stops in `log.Fatalf`, or panics. -/
inductive Outcome where
  | finished
  | fatal
  | panicked
deriving DecidableEq

/-! ## `cull_the_devs.go`: the Reclaimer -/

/-- The value of `instance_search`. -/
def instance_search : List Filter :=
  [ { Name := "tag:SlipwayCreated", Values := ["true"] },
    { Name := "tag-key", Values := ["ExpiresTimestamp"] },
    { Name := "instance-state-name", Values := ["running", "stopped"] } ]

/-- The variables the classification loop of `real_main` updates, and the number of
`time.Now()` readings taken so far. -/
structure ScanState where
  reads : Nat
  expired_nodes : List String
  expired_instance_ids : List String
deriving DecidableEq

/-- The state before the loop: no reading taken, both lists empty. -/
def ScanState.init : ScanState :=
  { reads := 0, expired_nodes := [], expired_instance_ids := [] }

/-- The body of the innermost loop of `real_main` for one tag; `clock k` is the `k`-th
reading of `time.Now()` of the run.  A parse error is logged and the time that `time.Parse`
returned is compared all the same. -/
def scanTag (clock : Nat → Time) (inst : Instance) (tag : Tag) (st : ScanState) :
    ScanState :=
  if tag.Key = "ExpiresTimestamp" then
    let t := (ParseRFC3339 tag.Value).1
    if (clock st.reads).After t then
      { reads := st.reads + 1,
        expired_nodes := st.expired_nodes ++ [inst.InstanceId],
        expired_instance_ids := st.expired_instance_ids ++ [inst.InstanceId] }
    else { st with reads := st.reads + 1 }
  else st

/-- The loop `for _, tag := range instance.Tags`. -/
def scanTags (clock : Nat → Time) (inst : Instance) : List Tag → ScanState → ScanState
  | [], st => st
  | tag :: rest, st => scanTags clock inst rest (scanTag clock inst tag st)

/-- The loop `for _, instance := range reservation.Instances`. -/
def scanInstances (clock : Nat → Time) : List Instance → ScanState → ScanState
  | [], st => st
  | i :: rest, st => scanInstances clock rest (scanTags clock i i.Tags st)

/-- The loop `for _, reservation := range result.Reservations`. -/
def scanReservations (clock : Nat → Time) : List Reservation → ScanState → ScanState
  | [], st => st
  | r :: rest, st => scanReservations clock rest (scanInstances clock r.Instances st)

/-- The loop that releases the addresses one at a time; the first failure is fatal. -/
def releaseAddresses (svc : Provider) : List String → List Call × Outcome
  | [] => ([], Outcome.finished)
  | a :: rest =>
    if svc.releaseFails a then ([Call.ReleaseAddress a], Outcome.fatal)
    else
      let r := releaseAddresses svc rest
      (Call.ReleaseAddress a :: r.1, r.2)

/-- The filter `instance-id` over the expired instance ids, as `real_main` builds it twice. -/
def instanceIdFilter (ids : List String) : List Filter :=
  [ { Name := "instance-id", Values := ids } ]

/-- Go `real_main`: the provider calls of one run of the Reclaimer, in order, and how the run
ends.  `clock k` is the `k`-th reading of `time.Now()`. -/
def real_main (clock : Nat → Time) (svc : Provider) : List Call × Outcome :=
  match svc.DescribeInstances instance_search with
  | none => ([Call.DescribeInstances instance_search], Outcome.fatal)
  | some result =>
    let st := scanReservations clock result ScanState.init
    match svc.DescribeAddresses (instanceIdFilter st.expired_instance_ids) with
    | none =>
      ([Call.DescribeInstances instance_search,
        Call.DescribeAddresses (instanceIdFilter st.expired_instance_ids)], Outcome.fatal)
    | some result_eip =>
      let expired_addresses := result_eip.map fun address => address.AllocationId
      let pre := [Call.DescribeInstances instance_search,
        Call.DescribeAddresses (instanceIdFilter st.expired_instance_ids)]
      if st.expired_nodes.length > 0 then
        if svc.terminateFails st.expired_nodes then
          (pre ++ [Call.TerminateInstances st.expired_nodes], Outcome.fatal)
        else if svc.waitTerminatedFails (instanceIdFilter st.expired_instance_ids) then
          (pre ++ [Call.TerminateInstances st.expired_nodes,
            Call.WaitUntilInstanceTerminated (instanceIdFilter st.expired_instance_ids)],
            Outcome.fatal)
        else
          let r := releaseAddresses svc expired_addresses
          (pre ++ [Call.TerminateInstances st.expired_nodes,
            Call.WaitUntilInstanceTerminated (instanceIdFilter st.expired_instance_ids)] ++ r.1,
            r.2)
      else (pre, Outcome.finished)

/-! ## Go `float64`, `int64`, `fmt`, `os/user` -/

/-- A Go `float64`: a finite value `(-1)^neg * mant * 2^exp` (with `mant < 2^53`), an
infinity, or NaN. -/
inductive Float64 where
  | finite (neg : Bool) (mant : Nat) (exp : Int)
  | inf (neg : Bool)
  | nan
deriving DecidableEq

/-- The rational value of a finite `float64` (zero for the special values). -/
def Float64.toRat : Float64 → ℚ
  | Float64.finite neg mant exp => (if neg then -1 else 1) * (mant : ℚ) * (2 : ℚ) ^ exp
  | _ => 0

/-- Go `d > 0` on `float64`. -/
def Float64.isPositive : Float64 → Bool
  | Float64.finite neg mant _ => !neg && decide (0 < mant)
  | Float64.inf neg => !neg
  | Float64.nan => false

/-- The number of low bits that `m` has beyond 53 significant bits: the least `s` with
`m / 2^s < 2^53` (`fuel` bounds the search). -/
def excessBits : Nat → Nat → Nat
  | 0, _ => 0
  | fuel + 1, m => if m < 2 ^ 53 then 0 else excessBits fuel (m / 2) + 1

/-- Rounds the magnitude `m * 2^e` to 53 significant bits, to nearest, ties to even; gives
the new mantissa and exponent. -/
def roundMant (m : Nat) (e : Int) : Nat × Int :=
  let s := excessBits m m
  if s = 0 then (m, e)
  else
    let q := m / 2 ^ s
    let r := m % 2 ^ s
    let half := 2 ^ (s - 1)
    (if half < r ∨ (r = half ∧ q % 2 = 1) then q + 1 else q, e + s)

/-- Go `60 * d` on `float64`: the exact product rounded to the nearest `float64`, an
infinity when the rounded product is `2^1024` or more. -/
def Float64.mul60 : Float64 → Float64
  | Float64.finite neg mant exp =>
    let r := roundMant (60 * mant) exp
    if 0 ≤ r.2 ∧ 2 ^ 1024 ≤ r.1 * 2 ^ r.2.toNat then Float64.inf neg
    else Float64.finite neg r.1 r.2
  | Float64.inf neg => Float64.inf neg
  | Float64.nan => Float64.nan

/-- The least `int64`. -/
def minInt64 : Int := -(2 ^ 63)

/-- An integer wrapped into the range of `int64`, as Go's arithmetic on `int64` does. -/
def wrapInt64 (x : Int) : Int := (x + 2 ^ 63) % 2 ^ 64 - 2 ^ 63

/-- Go's conversion `int64(f)` of a `float64` variable: the fraction is discarded
(truncation towards zero).  For a value that does not fit, and for NaN, the language leaves
the result to the implementation; the model gives the least `int64`, as amd64 does. -/
def Float64.toInt64 : Float64 → Int
  | Float64.finite neg mant exp =>
    let mag : Nat := if 0 ≤ exp then mant * 2 ^ exp.toNat else mant / 2 ^ (-exp).toNat
    let v : Int := if neg then -(mag : Int) else (mag : Int)
    if minInt64 ≤ v ∧ v < 2 ^ 63 then v else minInt64
  | _ => minInt64

/-- Go `time.Minute`, in nanoseconds. -/
def Minute : Int := 60 * nsPerSec

/-- Go `fmt` verb `%v` on an `int`: decimal. -/
def fmtV (x : Int) : List Char := appendInt x 1

/-- Go `fmt` verb `%02v` on an `int`: decimal, padded with zeros to two characters, the sign
counted. -/
def fmt02V (x : Int) : List Char := appendInt x (if x < 0 then 1 else 2)

/-- Go `user.User`: the field the programs read for the tags. -/
structure User where
  Username : String
deriving DecidableEq

/-- What `user.Current()` returns: the pointer `user_s` (`none` is the nil pointer) and
whether `err != nil`.  On an error the pointer is nil. -/
structure CurrentUser where
  user_s : Option User
  err : Bool
deriving DecidableEq

/-! ## `slipway.go`: the Provisioner -/

/-- Go `config_s`. -/
structure config_s where
  ami_id : String
  disk_size : Int
  duration : Float64
  instance_size : String
  launch_count : Int
  ssh_pub_key_path : String
  sec_group : String
  subnet_id : String
deriving DecidableEq

/-- Go `Time.Year()`, `Time.Month()`, `Time.Day()`: the civil date in the time's location. -/
def Time.date (t : Time) : Int × Int × Int :=
  absDate ((t.unix + t.loc t.unix) / 86400 + unixEpochDays)

/-- The `name_tag` of `prepare_tags`:
`fmt.Sprintf("%v_local_dev-%v%02v%v", username, year, int(month), day)`. -/
def name_tag (username : String) (current_time : Time) : String :=
  String.mk (username.data ++ "_local_dev-".data ++ fmtV current_time.date.1 ++
    fmt02V current_time.date.2.1 ++ fmtV current_time.date.2.2)

/-- The `expires_time` of `prepare_tags`:
`current_time.Add(time.Minute * time.Duration(60 * config.duration))`. -/
def expires_time (config : config_s) (current_time : Time) : Time :=
  current_time.Add (wrapInt64 (Minute * config.duration.mul60.toInt64))

/-- The variable `user_s` of `prepare_tags` after the statement `if err != nil { ... }`.
The branch declares a new variable with `user_s := new(user.User)` and stores `jdoe` in
that one; the outer `user_s` is not assigned in either case and stays as `user.Current()`
returned it. -/
def user_s_after_lookup (current : CurrentUser) : Option User :=
  if current.err then
    let shadow : User := { Username := "jdoe" }
    (fun (_ : User) => current.user_s) shadow
  else current.user_s

/-- Go `prepare_tags`, given the reading `current_time` of `time.Now()` and the result of
`user.Current()`.  Reading `user_s.Username` through a nil pointer panics (`none`). -/
def prepare_tags (config : config_s) (current_time : Time) (current : CurrentUser) :
    Option (List Tag × Time) :=
  match user_s_after_lookup current with
  | none => none
  | some user_s =>
    let timestamp_tag := current_time.FormatRFC3339
    let expires_tag := (expires_time config current_time).FormatRFC3339
    some ([ { Key := "CreatedTimestamp", Value := timestamp_tag },
            { Key := "ExpiresTimestamp", Value := expires_tag },
            { Key := "Name", Value := name_tag user_s.Username current_time },
            { Key := "SlipwayCreated", Value := "true" },
            { Key := "SlipwayUser", Value := user_s.Username } ],
          expires_time config current_time)

/-- The input of `RunInstances` as `make_instances` fills it. -/
structure RunInstancesInput where
  DeviceName : String
  VolumeSize : Int
  ImageId : String
  InstanceInitiatedShutdownBehavior : String
  InstanceType : String
  MaxCount : Int
  MinCount : Int
  SecurityGroupIds : List String
  SubnetId : String
  UserData : String
  ResourceType : String
  Tags : List Tag
deriving DecidableEq

/-- A call made by the Provisioner to the provider, in the order made. -/
inductive ProvisionCall where
  | RunInstances (input : RunInstancesInput)
  | AllocateAddress
  | WaitUntilInstanceRunning (instance_id : String)
  | AssociateAddress (allocation_id instance_id : String)
  | CreateTags (resource : String) (tags : List Tag)
deriving DecidableEq

/-- The provider as one run of the Provisioner meets it: the ids of the instances that
`RunInstances` creates (`none` is an error), the allocation id and public IP that
`AllocateAddress` gives when called for an instance (`none` is an error), and for the
other calls whether the provider answers with an error. -/
structure Ec2 where
  runInstances : Option (List String)
  allocateAddress : String → Option (String × String)
  waitRunningFails : String → Bool
  associateFails : String → String → Bool
  createTagsFails : String → Bool

/-- Go `allocate_public_ip`, given the reading of `time.Now()` that its `prepare_tags`
takes: the calls made, and the returned address and whether an error is returned; `none`
when `prepare_tags` panics. -/
def allocate_public_ip (config : config_s) (now : Time) (current : CurrentUser) (svc : Ec2)
    (instance_id : String) : Option (List ProvisionCall × String × Bool) :=
  match prepare_tags config now current with
  | none => none
  | some (tags, _) =>
    match svc.allocateAddress instance_id with
    | none => some ([ProvisionCall.AllocateAddress], "?.?.?.?", true)
    | some (allocation_id, elastic_ip) =>
      if svc.waitRunningFails instance_id then
        some ([ProvisionCall.AllocateAddress,
          ProvisionCall.WaitUntilInstanceRunning instance_id], elastic_ip, true)
      else if svc.associateFails allocation_id instance_id then
        some ([ProvisionCall.AllocateAddress,
          ProvisionCall.WaitUntilInstanceRunning instance_id,
          ProvisionCall.AssociateAddress allocation_id instance_id], elastic_ip, true)
      else
        some ([ProvisionCall.AllocateAddress,
          ProvisionCall.WaitUntilInstanceRunning instance_id,
          ProvisionCall.AssociateAddress allocation_id instance_id,
          ProvisionCall.CreateTags allocation_id tags], elastic_ip,
          svc.createTagsFails allocation_id)

/-- The loop of `make_instances` over the created instances; the instance handled next
takes reading `k` of the clock.  An error of `allocate_public_ip` is logged and the loop
goes on. -/
def allocateAll (config : config_s) (clock : Nat → Time) (current : CurrentUser) (svc : Ec2) :
    Nat → List String → List ProvisionCall × Outcome
  | _, [] => ([], Outcome.finished)
  | k, id :: rest =>
    match allocate_public_ip config (clock k) current svc id with
    | none => ([], Outcome.panicked)
    | some r =>
      let rs := allocateAll config clock current svc (k + 1) rest
      (r.1 ++ rs.1, rs.2)

/-- Go `make_instances`: the provider calls in order and how the function ends.  `clock k`
is the `k`-th reading of `time.Now()`: reading 0 is taken by the `prepare_tags` of
`make_instances`, the following ones by `allocate_public_ip`, one per instance. -/
def make_instances (config : config_s) (clock : Nat → Time) (current : CurrentUser)
    (svc : Ec2) (root_dev user_data : String) : List ProvisionCall × Outcome :=
  match prepare_tags config (clock 0) current with
  | none => ([], Outcome.panicked)
  | some (tags, _) =>
    let input : RunInstancesInput :=
      { DeviceName := root_dev,
        VolumeSize := config.disk_size,
        ImageId := config.ami_id,
        InstanceInitiatedShutdownBehavior := "terminate",
        InstanceType := config.instance_size,
        MaxCount := config.launch_count,
        MinCount := config.launch_count,
        SecurityGroupIds := [config.sec_group],
        SubnetId := config.subnet_id,
        UserData := user_data,
        ResourceType := "instance",
        Tags := tags }
    match svc.runInstances with
    | none => ([ProvisionCall.RunInstances input], Outcome.finished)
    | some instances =>
      let r := allocateAll config clock current svc 1 instances
      (ProvisionCall.RunInstances input :: r.1, r.2)

/-- The value of `test_config` in `slipway_test.go`; its duration is the `float64` nearest
to 0.1, `3602879701896397 * 2^-55`. -/
def test_config : config_s :=
  { ami_id := "ami-4e79ed36",
    disk_size := 8,
    duration := Float64.finite false 3602879701896397 (-55),
    instance_size := "t2.micro",
    launch_count := 1,
    ssh_pub_key_path := "~/.ssh/id_rsa.pub",
    sec_group := "",
    subnet_id := "" }

/-- The value of the first tag with this key, if there is one. -/
def tagValue (tags : List Tag) (key : String) : Option String :=
  (tags.find? fun t => decide (t.Key = key)).map fun t => t.Value

/-- The five keys of the lifecycle tag set, in the order `prepare_tags` lists them. -/
def lifecycleKeys : List String :=
  ["CreatedTimestamp", "ExpiresTimestamp", "Name", "SlipwayCreated", "SlipwayUser"]

/-! ## Concrete runs of the Reclaimer -/

/-- The time with the given Unix seconds, in UTC. -/
def atUnix (sec : Int) : Time := { ns := sec * nsPerSec, loc := UTC }

/-- A clock that reads the same time at every reading. -/
def constClock (t : Time) : Nat → Time := fun _ => t

/-- A provider whose calls all succeed, over the given store. -/
def healthyProvider (reservations : List Reservation) (addresses : List Address) : Provider :=
  { reservations := reservations,
    addresses := addresses,
    describeInstancesFails := false,
    describeAddressesFails := false,
    terminateFails := fun _ => false,
    waitTerminatedFails := fun _ => false,
    releaseFails := fun _ => false }

/-- A running Slipway instance whose `ExpiresTimestamp` tag is not a timestamp. -/
def unparsableInstance : Instance :=
  { InstanceId := "i-0a1b",
    StateName := "running",
    Tags := [⟨"CreatedTimestamp", "2018-07-05T10:00:00Z"⟩, ⟨"ExpiresTimestamp", "tomorrow"⟩,
      ⟨"Name", "alice_local_dev-2018075"⟩, ⟨"SlipwayCreated", "true"⟩,
      ⟨"SlipwayUser", "alice"⟩] }

/-- A running Slipway instance created at 2018-07-05T10:00:00Z for 0.1 hours. -/
def sixMinuteInstance : Instance :=
  { InstanceId := "i-0c2d",
    StateName := "running",
    Tags := [⟨"CreatedTimestamp", "2018-07-05T10:00:00Z"⟩,
      ⟨"ExpiresTimestamp", "2018-07-05T10:06:00Z"⟩,
      ⟨"Name", "alice_local_dev-2018075"⟩, ⟨"SlipwayCreated", "true"⟩,
      ⟨"SlipwayUser", "alice"⟩] }

/-- A floating IP without any tag, associated with `sixMinuteInstance`. -/
def untaggedAddress : Address :=
  { AllocationId := "eipalloc-77", InstanceId := some "i-0c2d", Tags := [] }

/-- A running instance with an `ExpiresTimestamp` long past that does not carry
`SlipwayCreated=true`. -/
def foreignInstance : Instance :=
  { InstanceId := "i-0e3f",
    StateName := "running",
    Tags := [⟨"ExpiresTimestamp", "2001-01-01T00:00:00Z"⟩, ⟨"SlipwayCreated", "false"⟩,
      ⟨"Name", "database"⟩] }

/-- A store with one expired Slipway instance, one foreign instance, and the untagged
floating IP of the Slipway instance. -/
def mixedProvider : Provider :=
  healthyProvider [{ Instances := [sixMinuteInstance, foreignInstance] }] [untaggedAddress]

/-- A running Slipway instance whose `ExpiresTimestamp` is written with a one-digit hour,
which Go's parser reads as 2099-07-05T09:06:00Z. -/
def oneDigitHourInstance : Instance :=
  { InstanceId := "i-0f4a",
    StateName := "running",
    Tags := [⟨"ExpiresTimestamp", "2099-07-05T9:06:00Z"⟩, ⟨"SlipwayCreated", "true"⟩] }

/-! ## Concrete runs of the Provisioner -/

/-- The answer of `user.Current()` for the user `alice`. -/
def aliceLookup : CurrentUser := { user_s := some { Username := "alice" }, err := false }

/-- The answer of `user.Current()` when the lookup fails: a nil pointer and an error. -/
def failedLookup : CurrentUser := { user_s := none, err := true }

/-- The answer of `user.Current()` for an account whose name is empty. -/
def namelessLookup : CurrentUser := { user_s := some { Username := "" }, err := false }

/-- A clock that starts at 2018-07-05T10:00:00Z and advances one second per reading. -/
def tickingClock : Nat → Time := fun k => atUnix (1530784800 + k)

/-- A provider whose calls all succeed and which creates the given instances. -/
def healthyEc2 (instances : List String) : Ec2 :=
  { runInstances := some instances,
    allocateAddress := fun id => some (String.mk ("eipalloc-".data ++ id.data), "203.0.113.7"),
    waitRunningFails := fun _ => false,
    associateFails := fun _ _ => false,
    createTagsFails := fun _ => false }

/-- The tags that `prepare_tags` builds for `test_config` and `alice` from the second
reading of `tickingClock`. -/
def secondReadingTags : List Tag :=
  [⟨"CreatedTimestamp", "2018-07-05T10:00:01Z"⟩, ⟨"ExpiresTimestamp", "2018-07-05T10:06:01Z"⟩,
   ⟨"Name", "alice_local_dev-2018075"⟩, ⟨"SlipwayCreated", "true"⟩, ⟨"SlipwayUser", "alice"⟩]

/-- The time is one that the layout `2006-01-02T15:04:05Z07:00` writes so that it reads
back: its year in its location has four digits (0 to 9999), and the zone offset in force is
a whole number of minutes, less than a day. -/
def Time.inLayoutRange (t : Time) : Prop :=
  0 ≤ t.date.1 ∧ t.date.1 ≤ 9999 ∧ t.loc t.unix % 60 = 0 ∧
    -86400 < t.loc t.unix ∧ t.loc t.unix < 86400

/-- The config of the test with a duration of `2^-7` hours, 0.0078125 hours or 28.125
seconds. -/
def fractionConfig : config_s :=
  { test_config with duration := Float64.finite false 1 (-7) }

/-- The tags and the expiry that `prepare_tags` returns; the empty list and the zero time
when it panics. -/
def prepare_tags_value (config : config_s) (current_time : Time) (current : CurrentUser) :
    List Tag × Time :=
  (prepare_tags config current_time current).getD ([], Time.zero)

/-! ## Go strings as bytes, `encoding/base64`, `text/template` -/

/-- The bytes of a Go `string` or `[]byte`, each a number below 256. -/
abbrev Bytes := List Nat

/-- Every element is a byte. -/
def Bytes.wellFormed (bs : Bytes) : Prop := ∀ b ∈ bs, b < 256

/-- The bytes of a string constant whose characters are all ASCII: one byte per character,
its code. -/
def asciiBytes (s : String) : Bytes := s.data.map Char.toNat

/-- Go `encodeStd`, the alphabet of `base64.StdEncoding`. -/
def encodeStd : String := "ABCDEFGHIJKLMNOPQRSTUVWXYZabcdefghijklmnopqrstuvwxyz0123456789+/"

/-- The character `enc.encode[n]` of the standard alphabet. -/
def encodeChar (n : Nat) : Char := encodeStd.data.getD n 'A'

/-- Go `base64.StdEncoding.EncodeToString` on the characters of the result: each three bytes
are gathered in `val` and written as four characters, six bits each; one or two bytes left
over are written as two or three characters and padded with `=`. -/
def encodeQuanta : Bytes → List Char
  | b0 :: b1 :: b2 :: rest =>
    let val := b0 * 65536 + b1 * 256 + b2
    encodeChar (val / 262144 % 64) :: encodeChar (val / 4096 % 64) ::
      encodeChar (val / 64 % 64) :: encodeChar (val % 64) :: encodeQuanta rest
  | [b0, b1] =>
    let val := b0 * 65536 + b1 * 256
    [encodeChar (val / 262144 % 64), encodeChar (val / 4096 % 64),
      encodeChar (val / 64 % 64), '=']
  | [b0] =>
    let val := b0 * 65536
    [encodeChar (val / 262144 % 64), encodeChar (val / 4096 % 64), '=', '=']
  | [] => []

/-- Go `base64.StdEncoding.EncodeToString`. -/
def EncodeToString (src : Bytes) : String := String.mk (encodeQuanta src)

/-- Go `decodeMap` of `base64.StdEncoding`: the six bits that a character of the alphabet
stands for. -/
def decodeVal (c : Char) : Option Nat :=
  if 'A' ≤ c ∧ c ≤ 'Z' then some (c.toNat - 65)
  else if 'a' ≤ c ∧ c ≤ 'z' then some (c.toNat - 97 + 26)
  else if '0' ≤ c ∧ c ≤ '9' then some (c.toNat - 48 + 52)
  else if c = '+' then some 62
  else if c = '/' then some 63
  else none

/-- The decoding of the quanta of four characters; padding `=` is accepted only at the end
of the last quantum. -/
def decodeQuanta : List Char → Option Bytes
  | [] => some []
  | c0 :: c1 :: c2 :: c3 :: rest =>
    match decodeVal c0, decodeVal c1 with
    | some v0, some v1 =>
      if c2 = '=' then
        if c3 = '=' ∧ rest = [] then some [(v0 * 64 + v1) / 16 % 256] else none
      else
        match decodeVal c2 with
        | some v2 =>
          if c3 = '=' then
            if rest = [] then
              some [((v0 * 64 + v1) * 64 + v2) / 1024 % 256, ((v0 * 64 + v1) * 64 + v2) / 4 % 256]
            else none
          else
            match decodeVal c3 with
            | some v3 =>
              let val := ((v0 * 64 + v1) * 64 + v2) * 64 + v3
              match decodeQuanta rest with
              | some bs => some (val / 65536 % 256 :: val / 256 % 256 :: val % 256 :: bs)
              | none => none
            | none => none
        | none => none
    | _, _ => none
  | _ => none

/-- Go `base64.StdEncoding.DecodeString`: carriage returns and newlines in the input are
passed over, the rest is decoded in quanta of four characters (`none` is an error). -/
def DecodeString (s : String) : Option Bytes :=
  decodeQuanta (s.data.filter fun c => !(c = '\r' || c = '\n'))

/-- A node of a parsed template: a stretch of text, or an action that prints a field of the
data. -/
inductive TemplateNode where
  | text (s : List Char)
  | field (name : List Char)
deriving DecidableEq

/-- A character of a field name: a letter, a digit or an underscore. -/
def isNameChar (c : Char) : Bool := c.isAlphanum || c = '_'

/-- The node of an action with the given content between the delimiters: a period followed by
a field name.  Other actions are outside the model (`none`). -/
def actionNode : List Char → Option TemplateNode
  | '.' :: name => if name ≠ [] ∧ name.all isNameChar then some (TemplateNode.field name) else none
  | _ => none

/-- Go `template.Parse` for templates made of text and field actions: the text up to each
left delimiter is a text node, the content up to the right delimiter an action.  `inAction`
says whether a left delimiter is open, `cur` holds the characters read since the last
delimiter, last first.  `none` is a parse error. -/
def parseTemplate : List Char → Bool → List Char → Option (List TemplateNode)
  | [], false, cur => some [TemplateNode.text cur.reverse]
  | [], true, _ => none
  | '\x7b' :: '\x7b' :: rest, false, cur =>
    match parseTemplate rest true [] with
    | some nodes => some (TemplateNode.text cur.reverse :: nodes)
    | none => none
  | '\x7d' :: '\x7d' :: rest, true, cur =>
    match actionNode cur.reverse, parseTemplate rest false [] with
    | some node, some nodes => some (node :: nodes)
    | _, _ => none
  | c :: rest, inAction, cur => parseTemplate rest inAction (c :: cur)

/-- Go `provisioner_values`; the strings are held as their bytes. -/
structure provisioner_values where
  Ami_user : Bytes
  Helm_src : Bytes
  Kube_ver : Bytes
  Minikube_src : Bytes
  Packages_list : Bytes
  Ssh_pub_key : Bytes

/-- The field of the data with the given name, if the struct has one. -/
def provisioner_values.lookup (values : provisioner_values) (name : List Char) : Option Bytes :=
  if name = "Ami_user".data then some values.Ami_user
  else if name = "Helm_src".data then some values.Helm_src
  else if name = "Kube_ver".data then some values.Kube_ver
  else if name = "Minikube_src".data then some values.Minikube_src
  else if name = "Packages_list".data then some values.Packages_list
  else if name = "Ssh_pub_key".data then some values.Ssh_pub_key
  else none

/-- Go `tmpl.Execute(buf, values)` on the bytes written to the buffer: text is copied, a
field action writes the string of the field as it is; a field that the data does not have
is an error (`none`). -/
def executeTemplate (values : provisioner_values) : List TemplateNode → Option Bytes
  | [] => some []
  | TemplateNode.text s :: rest =>
    match executeTemplate values rest with
    | some out => some (s.map Char.toNat ++ out)
    | none => none
  | TemplateNode.field name :: rest =>
    match values.lookup name, executeTemplate values rest with
    | some v, some out => some (v ++ out)
    | _, _ => none

/-- The value of the constant `provisioner_script`, the template of the boot script, line by
line. -/
def provisioner_script : String :=
  String.join [
    "#!/bin/bash\n",
    "HELM_SRC=\"\x7b\x7b.Helm_src\x7d\x7d\"\n",
    "MINIKUBE_SRC=\"\x7b\x7b.Minikube_src\x7d\x7d\"\n",
    "PACKAGES_LIST=\"\x7b\x7b.Packages_list\x7d\x7d\"\n",
    "SSH_PUB_KEY=\"\x7b\x7b.Ssh_pub_key\x7d\x7d\"\n",
    "\n",
    "echo \"Setting DNS name in /etc/hosts\"\n",
    "echo \"$(ip route get 1 | awk '\x7bprint $NF;exit\x7d') $\x7bHOSTNAME\x7d\" >> /etc/hosts\n",
    "\n",
    "echo \"Installing ssh public key\"\n",
    "mkdir -p /home/\x7b\x7b.Ami_user\x7d\x7d/.ssh\n",
    "echo $\x7bSSH_PUB_KEY\x7d > /home/\x7b\x7b.Ami_user\x7d\x7d/.ssh/authorized_keys\n",
    "chown \x7b\x7b.Ami_user\x7d\x7d:\x7b\x7b.Ami_user\x7d\x7d /home/\x7b\x7b.Ami_user\x7d\x7d/.ssh/authorized_keys\n",
    "\n",
    "echo \"Installing Kubernetes repo\"\n",
    "curl -s https://packages.cloud.google.com/apt/doc/apt-key.gpg | apt-key add -\n",
    "echo \"deb http://apt.kubernetes.io/ kubernetes-xenial main\" > /etc/apt/sources.list.d/kubernetes.list\n",
    "echo \"Updating and installing packages\"\n",
    "apt-get update\n",
    "DEBIAN_FRONTEND=noninteractive apt-get -y -o Dpkg::Options::='--force-confdef' -o Dpkg::Options::='--force-confnew' dist-upgrade\n",
    "apt-get autoremove -y\n",
    "apt-get install -y $\x7bPACKAGES_LIST\x7d\n",
    "rm -rf /var/lib/apt/lists/*\n",
    "echo \"Set permissions and enable docker\"\n",
    "usermod -aG docker \x7b\x7b.Ami_user\x7d\x7d\n",
    "systemctl enable docker\n",
    "\n",
    "echo \"Install minikube\"\n",
    "wget $\x7bMINIKUBE_SRC\x7d\n",
    "dpkg -i minikube*.deb\n",
    "\n",
    "cat <<END > /etc/rc.local\n",
    "#!/bin/sh -e\n",
    "#\n",
    "# rc.local\n",
    "#\n",
    "# This script is executed at the end of each multiuser runlevel.\n",
    "# Make sure that the script will \"exit 0\" on success or any other\n",
    "# value on error.\n",
    "#\n",
    "# In order to enable or disable this script just change the execution\n",
    "# bits.\n",
    "#\n",
    "# By default this script does nothing.\n",
    "\n",
    "mkdir -p /home/\x7b\x7b.Ami_user\x7d\x7d/.kube\n",
    "touch /home/\x7b\x7b.Ami_user\x7d\x7d/.kube/config\n",
    "export MINIKUBE_WANTUPDATENOTIFICATION=false\n",
    "export MINIKUBE_WANTREPORTERRORPROMPT=false\n",
    "export MINIKUBE_HOME=/home/\x7b\x7b.Ami_user\x7d\x7d\n",
    "export CHANGE_MINIKUBE_NONE_USER=true\n",
    "export KUBECONFIG=/home/\x7b\x7b.Ami_user\x7d\x7d/.kube/config\n",
    "minikube start --vm-driver=none --kubernetes-version \x7b\x7b.Kube_ver\x7d\x7d\n",
    "chown -R \x7b\x7b.Ami_user\x7d\x7d:\x7b\x7b.Ami_user\x7d\x7d /home/\x7b\x7b.Ami_user\x7d\x7d\n",
    "touch /node_ready\n",
    "exit 0\n",
    "END\n",
    "\n",
    "echo \"Install helm\"\n",
    "wget $\x7bHELM_SRC\x7d\n",
    "tar xzf helm*.tar.gz\n",
    "cp linux-amd64/helm /usr/local/bin/helm\n",
    "\n",
    "echo \"Rebooting before first use\"\n",
    "reboot\n"]

/-- The value of the constant `expected_provisioner_script` of `slipway_test.go`, the golden
script, line by line. -/
def expected_provisioner_script : String :=
  String.join [
    "#!/bin/bash\n",
    "HELM_SRC=\"https://storage.googleapis.com/kubernetes-helm/helm-v2.9.1-linux-amd64.tar.gz\"\n",
    "MINIKUBE_SRC=\"https://github.com/kubernetes/minikube/releases/download/v0.28.0/minikube_0.28-0.deb\"\n",
    "PACKAGES_LIST=\"build-essential docker.io htop kubectl npm python socat tmux\"\n",
    "SSH_PUB_KEY=\"asdf\n",
    "\"\n",
    "\n",
    "echo \"Setting DNS name in /etc/hosts\"\n",
    "echo \"$(ip route get 1 | awk '\x7bprint $NF;exit\x7d') $\x7bHOSTNAME\x7d\" >> /etc/hosts\n",
    "\n",
    "echo \"Installing ssh public key\"\n",
    "mkdir -p /home/ubuntu/.ssh\n",
    "echo $\x7bSSH_PUB_KEY\x7d > /home/ubuntu/.ssh/authorized_keys\n",
    "chown ubuntu:ubuntu /home/ubuntu/.ssh/authorized_keys\n",
    "\n",
    "echo \"Installing Kubernetes repo\"\n",
    "curl -s https://packages.cloud.google.com/apt/doc/apt-key.gpg | apt-key add -\n",
    "echo \"deb http://apt.kubernetes.io/ kubernetes-xenial main\" > /etc/apt/sources.list.d/kubernetes.list\n",
    "echo \"Updating and installing packages\"\n",
    "apt-get update\n",
    "DEBIAN_FRONTEND=noninteractive apt-get -y -o Dpkg::Options::='--force-confdef' -o Dpkg::Options::='--force-confnew' dist-upgrade\n",
    "apt-get autoremove -y\n",
    "apt-get install -y $\x7bPACKAGES_LIST\x7d\n",
    "rm -rf /var/lib/apt/lists/*\n",
    "echo \"Set permissions and enable docker\"\n",
    "usermod -aG docker ubuntu\n",
    "systemctl enable docker\n",
    "\n",
    "echo \"Install minikube\"\n",
    "wget $\x7bMINIKUBE_SRC\x7d\n",
    "dpkg -i minikube*.deb\n",
    "\n",
    "cat <<END > /etc/rc.local\n",
    "#!/bin/sh -e\n",
    "#\n",
    "# rc.local\n",
    "#\n",
    "# This script is executed at the end of each multiuser runlevel.\n",
    "# Make sure that the script will \"exit 0\" on success or any other\n",
    "# value on error.\n",
    "#\n",
    "# In order to enable or disable this script just change the execution\n",
    "# bits.\n",
    "#\n",
    "# By default this script does nothing.\n",
    "\n",
    "mkdir -p /home/ubuntu/.kube\n",
    "touch /home/ubuntu/.kube/config\n",
    "export MINIKUBE_WANTUPDATENOTIFICATION=false\n",
    "export MINIKUBE_WANTREPORTERRORPROMPT=false\n",
    "export MINIKUBE_HOME=/home/ubuntu\n",
    "export CHANGE_MINIKUBE_NONE_USER=true\n",
    "export KUBECONFIG=/home/ubuntu/.kube/config\n",
    "minikube start --vm-driver=none --kubernetes-version v1.9.3\n",
    "chown -R ubuntu:ubuntu /home/ubuntu\n",
    "touch /node_ready\n",
    "exit 0\n",
    "END\n",
    "\n",
    "echo \"Install helm\"\n",
    "wget $\x7bHELM_SRC\x7d\n",
    "tar xzf helm*.tar.gz\n",
    "cp linux-amd64/helm /usr/local/bin/helm\n",
    "\n",
    "echo \"Rebooting before first use\"\n",
    "reboot\n"]

/-- The constant `ami_user`. -/
def ami_user : String := "ubuntu"

/-- The constant `helm_src`. -/
def helm_src : String :=
  "https://storage.googleapis.com/kubernetes-helm/helm-v2.9.1-linux-amd64.tar.gz"

/-- The constant `kube_ver`. -/
def kube_ver : String := "v1.9.3"

/-- The constant `minikube_src`. -/
def minikube_src : String :=
  "https://github.com/kubernetes/minikube/releases/download/v0.28.0/minikube_0.28-0.deb"

/-- The constant `packages_list`. -/
def packages_list : String := "build-essential docker.io htop kubectl npm python socat tmux"

/-- The `values` of `get_provisioner` for the key file content `ssh_pub_key`. -/
def provisionerValues (ssh_pub_key : Bytes) : provisioner_values :=
  { Ami_user := asciiBytes ami_user,
    Helm_src := asciiBytes helm_src,
    Kube_ver := asciiBytes kube_ver,
    Minikube_src := asciiBytes minikube_src,
    Packages_list := asciiBytes packages_list,
    Ssh_pub_key := ssh_pub_key }

/-- Go `get_provisioner`; `readFile` is the file system as `ioutil.ReadFile` sees it (`none`
is an error).  The result is the returned string, the returned error being nil always;
`none` is the exit in `log.Fatalf` when the file cannot be read or the template fails. -/
def get_provisioner (readFile : String → Option Bytes) (ssh_pub_key_path : String) :
    Option String :=
  match readFile ssh_pub_key_path with
  | none => none
  | some ssh_pub_key =>
    match parseTemplate provisioner_script.data false [] with
    | none => none
    | some tmpl =>
      match executeTemplate (provisionerValues ssh_pub_key) tmpl with
      | none => none
      | some buf => some (EncodeToString buf)

/-- The number of bytes of the golden script before the key. -/
def goldenKeyOffset : Nat := 291

/-- The golden script up to the key: its first 291 bytes. -/
def scriptBeforeKey : Bytes := (asciiBytes expected_provisioner_script).take goldenKeyOffset

/-- The golden script after the key `asdf` and its newline, five bytes. -/
def scriptAfterKey : Bytes := (asciiBytes expected_provisioner_script).drop (goldenKeyOffset + 5)

/-- The boot script as the spec describes it: the fixed script for the user `ubuntu`,
Kubernetes `v1.9.3`, the fixed package list and source URLs, with the key `k` in the place
where the golden script has its key. -/
def renderedScript (k : Bytes) : Bytes := scriptBeforeKey ++ (k ++ scriptAfterKey)

/-- The content of the key file of the test: `asdf` and a newline. -/
def testKey : Bytes := [97, 115, 100, 102, 10]

/-- A file system that holds the given content at every path. -/
def fileWith (content : Bytes) : String → Option Bytes := fun _ => some content

/-- The nodes of the parsed `provisioner_script` (none if the parse fails). -/
def templateNodes : List TemplateNode :=
  (parseTemplate provisioner_script.data false []).getD []

/-- The action that prints the key. -/
def keyNode : TemplateNode := TemplateNode.field "Ssh_pub_key".data

/-! ## The classification loop -/

theorem scanTag_nodes (clock : Nat → Time) (inst : Instance) (tag : Tag) (st : ScanState) :
    (scanTag clock inst tag st).expired_nodes =
      if tag.Key = "ExpiresTimestamp" ∧ (clock st.reads).After (ParseRFC3339 tag.Value).1 = true
      then st.expired_nodes ++ [inst.InstanceId] else st.expired_nodes := by
  unfold scanTag
  by_cases hk : tag.Key = "ExpiresTimestamp"
  · by_cases ha : (clock st.reads).After (ParseRFC3339 tag.Value).1 = true
    · simp [hk, ha]
    · simp [hk, ha]
  · simp [hk]

theorem scanTag_ids_eq (clock : Nat → Time) (inst : Instance) (tag : Tag) (st : ScanState)
    (h : st.expired_nodes = st.expired_instance_ids) :
    (scanTag clock inst tag st).expired_nodes =
      (scanTag clock inst tag st).expired_instance_ids := by
  unfold scanTag
  by_cases hk : tag.Key = "ExpiresTimestamp"
  · by_cases ha : (clock st.reads).After (ParseRFC3339 tag.Value).1 = true
    · simp [hk, ha, h]
    · simp [hk, ha, h]
  · simp [hk, h]

theorem scanTags_ids_eq (clock : Nat → Time) (inst : Instance) (tags : List Tag) :
    ∀ st : ScanState, st.expired_nodes = st.expired_instance_ids →
      (scanTags clock inst tags st).expired_nodes =
        (scanTags clock inst tags st).expired_instance_ids := by
  induction tags with
  | nil => intro st h; exact h
  | cons tag rest ih => intro st h; exact ih _ (scanTag_ids_eq clock inst tag st h)

theorem scanInstances_ids_eq (clock : Nat → Time) (is : List Instance) :
    ∀ st : ScanState, st.expired_nodes = st.expired_instance_ids →
      (scanInstances clock is st).expired_nodes =
        (scanInstances clock is st).expired_instance_ids := by
  induction is with
  | nil => intro st h; exact h
  | cons i rest ih => intro st h; exact ih _ (scanTags_ids_eq clock i i.Tags st h)

theorem scanReservations_ids_eq (clock : Nat → Time) (rs : List Reservation) :
    ∀ st : ScanState, st.expired_nodes = st.expired_instance_ids →
      (scanReservations clock rs st).expired_nodes =
        (scanReservations clock rs st).expired_instance_ids := by
  induction rs with
  | nil => intro st h; exact h
  | cons r rest ih => intro st h; exact ih _ (scanInstances_ids_eq clock r.Instances st h)

/-- An id that is marked after the tags of one instance was marked before, or is the id of
this instance and one of these tags is an `ExpiresTimestamp` tag whose time lies before a
reading of the clock. -/
theorem scanTags_mem (clock : Nat → Time) (inst : Instance) (id : String) (tags : List Tag) :
    ∀ st : ScanState, id ∈ (scanTags clock inst tags st).expired_nodes →
      id ∈ st.expired_nodes ∨ (id = inst.InstanceId ∧ ∃ tag ∈ tags,
        tag.Key = "ExpiresTimestamp" ∧ ∃ k, (clock k).After (ParseRFC3339 tag.Value).1 = true) := by
  induction tags with
  | nil => intro st h; exact Or.inl h
  | cons tag rest ih =>
    intro st h
    rcases ih _ h with h1 | ⟨hid, t, ht, hk, hc⟩
    · rw [scanTag_nodes] at h1
      split at h1
      · rename_i hc
        rcases List.mem_append.1 h1 with h2 | h2
        · exact Or.inl h2
        · exact Or.inr ⟨by simpa using h2, tag, List.mem_cons_self _ _, hc.1, st.reads, hc.2⟩
      · exact Or.inl h1
    · exact Or.inr ⟨hid, t, List.mem_cons_of_mem _ ht, hk, hc⟩

theorem scanTag_mono (clock : Nat → Time) (inst : Instance) (id : String) (tag : Tag)
    (st : ScanState) (h : id ∈ st.expired_nodes) :
    id ∈ (scanTag clock inst tag st).expired_nodes := by
  rw [scanTag_nodes]
  split
  · exact List.mem_append_left _ h
  · exact h

theorem scanTags_mono (clock : Nat → Time) (inst : Instance) (id : String) (tags : List Tag) :
    ∀ st : ScanState, id ∈ st.expired_nodes → id ∈ (scanTags clock inst tags st).expired_nodes := by
  induction tags with
  | nil => intro st h; exact h
  | cons tag rest ih => intro st h; exact ih _ (scanTag_mono clock inst id tag st h)

theorem scanInstances_mono (clock : Nat → Time) (id : String) (is : List Instance) :
    ∀ st : ScanState, id ∈ st.expired_nodes → id ∈ (scanInstances clock is st).expired_nodes := by
  induction is with
  | nil => intro st h; exact h
  | cons i rest ih => intro st h; exact ih _ (scanTags_mono clock i id i.Tags st h)

theorem scanReservations_mono (clock : Nat → Time) (id : String) (rs : List Reservation) :
    ∀ st : ScanState, id ∈ st.expired_nodes →
      id ∈ (scanReservations clock rs st).expired_nodes := by
  induction rs with
  | nil => intro st h; exact h
  | cons r rest ih => intro st h; exact ih _ (scanInstances_mono clock id r.Instances st h)

/-- An `ExpiresTimestamp` tag whose time lies before every reading of the clock marks its
instance. -/
theorem scanTags_marks (clock : Nat → Time) (inst : Instance) (tags : List Tag) (tag : Tag)
    (hk : tag.Key = "ExpiresTimestamp")
    (ha : ∀ k, (clock k).After (ParseRFC3339 tag.Value).1 = true) :
    ∀ st : ScanState, tag ∈ tags →
      inst.InstanceId ∈ (scanTags clock inst tags st).expired_nodes := by
  induction tags with
  | nil => intro st h; cases h
  | cons t rest ih =>
    intro st h
    rcases List.mem_cons.1 h with h1 | h1
    · subst h1
      refine scanTags_mono clock inst _ rest (scanTag clock inst tag st) ?_
      rw [scanTag_nodes, if_pos ⟨hk, ha _⟩]
      simp
    · exact ih _ h1

theorem scanInstances_mem (clock : Nat → Time) (id : String) (is : List Instance) :
    ∀ st : ScanState, id ∈ (scanInstances clock is st).expired_nodes →
      id ∈ st.expired_nodes ∨ ∃ i ∈ is, id = i.InstanceId ∧ ∃ tag ∈ i.Tags,
        tag.Key = "ExpiresTimestamp" ∧ ∃ k, (clock k).After (ParseRFC3339 tag.Value).1 = true := by
  induction is with
  | nil => intro st h; exact Or.inl h
  | cons i rest ih =>
    intro st h
    rcases ih _ h with h1 | ⟨j, hj, hr⟩
    · rcases scanTags_mem clock i id i.Tags st h1 with h2 | h2
      · exact Or.inl h2
      · exact Or.inr ⟨i, List.mem_cons_self _ _, h2⟩
    · exact Or.inr ⟨j, List.mem_cons_of_mem _ hj, hr⟩

theorem scanReservations_mem (clock : Nat → Time) (id : String) (rs : List Reservation) :
    ∀ st : ScanState, id ∈ (scanReservations clock rs st).expired_nodes →
      id ∈ st.expired_nodes ∨ ∃ r ∈ rs, ∃ i ∈ r.Instances, id = i.InstanceId ∧ ∃ tag ∈ i.Tags,
        tag.Key = "ExpiresTimestamp" ∧ ∃ k, (clock k).After (ParseRFC3339 tag.Value).1 = true := by
  induction rs with
  | nil => intro st h; exact Or.inl h
  | cons r rest ih =>
    intro st h
    rcases ih _ h with h1 | ⟨q, hq, hr⟩
    · rcases scanInstances_mem clock id r.Instances st h1 with h2 | ⟨i, hi, h2⟩
      · exact Or.inl h2
      · exact Or.inr ⟨r, List.mem_cons_self _ _, i, hi, h2⟩
    · exact Or.inr ⟨q, List.mem_cons_of_mem _ hq, hr⟩

theorem scanInstances_marks (clock : Nat → Time) (inst : Instance) (tag : Tag)
    (ht : tag ∈ inst.Tags) (hk : tag.Key = "ExpiresTimestamp")
    (ha : ∀ k, (clock k).After (ParseRFC3339 tag.Value).1 = true) (is : List Instance) :
    ∀ st : ScanState, inst ∈ is →
      inst.InstanceId ∈ (scanInstances clock is st).expired_nodes := by
  induction is with
  | nil => intro st h; cases h
  | cons i rest ih =>
    intro st h
    rcases List.mem_cons.1 h with h1 | h1
    · subst h1
      exact scanInstances_mono clock _ rest _ (scanTags_marks clock inst inst.Tags tag hk ha st ht)
    · exact ih _ h1

theorem scanReservations_marks (clock : Nat → Time) (inst : Instance) (tag : Tag)
    (ht : tag ∈ inst.Tags) (hk : tag.Key = "ExpiresTimestamp")
    (ha : ∀ k, (clock k).After (ParseRFC3339 tag.Value).1 = true) (rs : List Reservation) :
    ∀ st : ScanState, (∃ r ∈ rs, inst ∈ r.Instances) →
      inst.InstanceId ∈ (scanReservations clock rs st).expired_nodes := by
  induction rs with
  | nil => intro st h; rcases h with ⟨r, hr, _⟩; cases hr
  | cons r rest ih =>
    intro st h
    rcases h with ⟨q, hq, hi⟩
    rcases List.mem_cons.1 hq with h1 | h1
    · subst h1
      exact scanReservations_mono clock _ rest _
        (scanInstances_marks clock inst tag ht hk ha q.Instances st hi)
    · exact ih _ ⟨q, h1, hi⟩

/-! ## The run of the Reclaimer -/

/-- The release loop makes release calls only, for a prefix of the addresses handed to it. -/
theorem releaseAddresses_calls (svc : Provider) (as : List String) :
    ∃ rel : List String, (releaseAddresses svc as).1 = rel.map Call.ReleaseAddress ∧
      ∀ a ∈ rel, a ∈ as := by
  induction as with
  | nil => exact ⟨[], rfl, fun _ h => h⟩
  | cons a rest ih =>
    rcases ih with ⟨rel, h1, h2⟩
    by_cases hf : svc.releaseFails a = true
    · refine ⟨[a], ?_, ?_⟩
      · simp [releaseAddresses, hf]
      · intro b hb
        rcases List.mem_singleton.1 hb with rfl
        exact List.mem_cons_self _ _
    · refine ⟨a :: rel, ?_, ?_⟩
      · simp [releaseAddresses, hf, h1]
      · intro b hb
        rcases List.mem_cons.1 hb with rfl | hb
        · exact List.mem_cons_self _ _
        · exact List.mem_cons_of_mem _ (h2 b hb)

/-- A run that terminates instances got an answer from discovery and terminates exactly the
ids that the classification loop marked in that answer. -/
theorem real_main_terminate (clock : Nat → Time) (svc : Provider) (ids : List String)
    (h : Call.TerminateInstances ids ∈ (real_main clock svc).1) :
    ∃ result, svc.DescribeInstances instance_search = some result ∧
      ids = (scanReservations clock result ScanState.init).expired_nodes := by
  unfold real_main at h
  cases hd : svc.DescribeInstances instance_search with
  | none => simp [hd] at h
  | some result =>
    refine ⟨result, rfl, ?_⟩
    simp only [hd] at h
    cases ha : svc.DescribeAddresses (instanceIdFilter
        (scanReservations clock result ScanState.init).expired_instance_ids) with
    | none => simp [ha] at h
    | some result_eip =>
      simp only [ha] at h
      rcases releaseAddresses_calls svc (result_eip.map fun address => address.AllocationId)
        with ⟨rel, hrel, _⟩
      split at h
      · split at h
        · simpa using h
        · split at h
          · simpa using h
          · rw [hrel] at h
            simpa using h
      · simp at h

/-- A run that releases an address has the shape: discovery, address lookup, one terminate
call that succeeded, one wait that returned without error, then release calls only. -/
theorem real_main_release (clock : Nat → Time) (svc : Provider) (a : String)
    (h : Call.ReleaseAddress a ∈ (real_main clock svc).1) :
    ∃ (result : List Reservation) (result_eip : List Address) (rel : List String),
      svc.DescribeInstances instance_search = some result ∧
      svc.DescribeAddresses (instanceIdFilter
        (scanReservations clock result ScanState.init).expired_nodes) = some result_eip ∧
      (∀ b ∈ rel, ∃ address ∈ result_eip, address.AllocationId = b) ∧
      a ∈ rel ∧
      svc.terminateFails (scanReservations clock result ScanState.init).expired_nodes = false ∧
      svc.waitTerminatedFails (instanceIdFilter
        (scanReservations clock result ScanState.init).expired_nodes) = false ∧
      (real_main clock svc).1 =
        [Call.DescribeInstances instance_search,
         Call.DescribeAddresses (instanceIdFilter
          (scanReservations clock result ScanState.init).expired_nodes),
         Call.TerminateInstances (scanReservations clock result ScanState.init).expired_nodes,
         Call.WaitUntilInstanceTerminated (instanceIdFilter
          (scanReservations clock result ScanState.init).expired_nodes)] ++
        rel.map Call.ReleaseAddress := by
  have hids := scanReservations_ids_eq clock
  unfold real_main at h ⊢
  cases hd : svc.DescribeInstances instance_search with
  | none => simp [hd] at h
  | some result =>
    have hid := hids result ScanState.init rfl
    simp only [hd] at h ⊢
    rw [← hid] at h ⊢
    cases ha : svc.DescribeAddresses (instanceIdFilter
        (scanReservations clock result ScanState.init).expired_nodes) with
    | none => simp [ha] at h
    | some result_eip =>
      simp only [ha] at h ⊢
      rcases releaseAddresses_calls svc (result_eip.map fun address => address.AllocationId)
        with ⟨rel, hrel, hsub⟩
      split at h
      · split at h
        · simp at h
        · split at h
          · simp at h
          · rename_i hlen htf hwf
            refine ⟨result, result_eip, rel, rfl, ha, ?_, ?_, ?_, ?_, ?_⟩
            · intro b hb
              have := hsub b hb
              simpa using this
            · rw [hrel] at h
              simpa using h
            · simpa using htf
            · simpa using hwf
            · simp [hlen, htf, hwf, hrel]
      · simp at h

/-- What discovery with `instance_search` returns: instances of the store that carry the tag
`SlipwayCreated=true`, a tag with key `ExpiresTimestamp`, and are running or stopped. -/
theorem describeInstances_search (svc : Provider) (result : List Reservation)
    (h : svc.DescribeInstances instance_search = some result) :
    ∀ r ∈ result, ∀ i ∈ r.Instances,
      (∃ q ∈ svc.reservations, i ∈ q.Instances) ∧
      hasTag i.Tags "SlipwayCreated" "true" = true ∧
      hasTagKey i.Tags "ExpiresTimestamp" = true ∧
      (i.StateName = "running" ∨ i.StateName = "stopped") := by
  intro r hr i hi
  unfold Provider.DescribeInstances at h
  split at h
  · cases h
  · injection h with h
    subst h
    rcases List.mem_filter.1 hr with ⟨hr1, _⟩
    rcases List.mem_map.1 hr1 with ⟨q, hq, rfl⟩
    rcases List.mem_filter.1 hi with ⟨hi1, hi2⟩
    refine ⟨⟨q, hq, hi1⟩, ?_⟩
    have h1 : Filter.matchesInstance { Name := "tag:SlipwayCreated", Values := ["true"] } i = true :=
      List.all_eq_true.1 hi2 _ (by simp [instance_search])
    have h2 : Filter.matchesInstance { Name := "tag-key", Values := ["ExpiresTimestamp"] } i = true :=
      List.all_eq_true.1 hi2 _ (by simp [instance_search])
    have h3 : Filter.matchesInstance
        { Name := "instance-state-name", Values := ["running", "stopped"] } i = true :=
      List.all_eq_true.1 hi2 _ (by simp [instance_search])
    refine ⟨?_, ?_, ?_⟩
    · have e1 : ("tag:SlipwayCreated" = "tag-key") = False := by decide
      have e2 : ("tag:SlipwayCreated" = "instance-state-name") = False := by decide
      have e3 : ("tag:SlipwayCreated" = "instance-id") = False := by decide
      simp only [Filter.matchesInstance, e1, e2, e3, if_false] at h1
      simpa [hasTag] using h1
    · simpa [Filter.matchesInstance, hasTagKey] using h2
    · have e1 : ("instance-state-name" = "tag-key") = False := by decide
      simp only [Filter.matchesInstance, e1, if_false] at h3
      simpa using h3

/-- A run whose discovery and address lookup succeed and whose classification loop marked
an instance makes the terminate call for the marked ids. -/
theorem real_main_terminates_marked (clock : Nat → Time) (svc : Provider)
    (rs : List Reservation) (hd : svc.DescribeInstances instance_search = some rs)
    (ha : svc.describeAddressesFails = false)
    (hne : (scanReservations clock rs ScanState.init).expired_nodes ≠ []) :
    Call.TerminateInstances (scanReservations clock rs ScanState.init).expired_nodes ∈
      (real_main clock svc).1 := by
  have hlen : (scanReservations clock rs ScanState.init).expired_nodes.length > 0 :=
    List.length_pos.2 hne
  unfold real_main
  simp only [hd, Provider.DescribeAddresses, ha, Bool.false_eq_true, if_false, hlen, if_true]
  by_cases htf : svc.terminateFails (scanReservations clock rs ScanState.init).expired_nodes = true
  · simp [htf]
  · by_cases hwf : svc.waitTerminatedFails (instanceIdFilter
        (scanReservations clock rs ScanState.init).expired_instance_ids) = true
    · simp [htf, hwf]
    · simp [htf, hwf]

/-- The parser on some inputs: an hour of one digit is read like the hour with a leading
zero; a fractional second and a zone offset are read; a month, day, minute or second of one
digit, an hour of 24, text after the zone and a word are errors. -/
theorem parseRFC3339_examples :
    (ParseRFC3339 "2099-07-05T9:06:00Z").2 = false ∧
    (ParseRFC3339 "2099-07-05T9:06:00Z").1.ns = 4086925560 * nsPerSec ∧
    (ParseRFC3339 "2099-07-05T09:06:00Z").1.ns = 4086925560 * nsPerSec ∧
    (ParseRFC3339 "2099-07-05T09:06:00.25+02:00").1.ns = 4086918360250000000 ∧
    (ParseRFC3339 "2099-7-05T09:06:00Z").2 = true ∧
    (ParseRFC3339 "2099-07-5T09:06:00Z").2 = true ∧
    (ParseRFC3339 "2099-07-05T09:6:00Z").2 = true ∧
    (ParseRFC3339 "2099-07-05T09:06:0Z").2 = true ∧
    (ParseRFC3339 "2099-07-05T24:06:00Z").2 = true ∧
    (ParseRFC3339 "2099-07-05T09:06:00Zx").2 = true ∧
    (ParseRFC3339 "tomorrow").2 = true := by
  decide

/-! ## Claims about the Reclaimer -/

/-- A tag with key `ExpiresTimestamp` whose value does not parse marks its instance at every
reading of the clock that is after the zero time, January 1 of year 1. -/
theorem scanTag_unparsable (clock : Nat → Time) (inst : Instance) (tag : Tag) (st : ScanState)
    (hk : tag.Key = "ExpiresTimestamp") (herr : (ParseRFC3339 tag.Value).2 = true)
    (hnow : Time.zero.ns < (clock st.reads).ns) :
    (scanTag clock inst tag st).expired_nodes = st.expired_nodes ++ [inst.InstanceId] := by
  have hz : (ParseRFC3339 tag.Value).1.ns = Time.zero.ns := by
    unfold ParseRFC3339 at herr ⊢
    cases hp : parseRFC3339Nanos tag.Value.data with
    | none => rfl
    | some n => simp [hp] at herr
  rw [scanTag_nodes, if_pos]
  refine ⟨hk, ?_⟩
  simp only [Time.After, decide_eq_true_eq, hz]
  exact hnow

/-- C1 (the code departs from the claim): an instance whose `ExpiresTimestamp` tag is
`tomorrow`, which does not parse as RFC 3339, is discovered at 2018-07-05T10:00:00Z; the
parse error is only logged, the zero time that the parser returned is compared with the
clock, and the instance id is passed to the terminate call. -/
theorem C1_unparsable_expiry_is_terminated :
    (ParseRFC3339 "tomorrow").2 = true ∧
    (scanReservations (constClock (atUnix 1530784800)) [{ Instances := [unparsableInstance] }]
      ScanState.init).expired_nodes = ["i-0a1b"] ∧
    real_main (constClock (atUnix 1530784800))
        (healthyProvider [{ Instances := [unparsableInstance] }] []) =
      ([Call.DescribeInstances instance_search,
        Call.DescribeAddresses (instanceIdFilter ["i-0a1b"]),
        Call.TerminateInstances ["i-0a1b"],
        Call.WaitUntilInstanceTerminated (instanceIdFilter ["i-0a1b"])], Outcome.finished) := by
  decide

/-- C4: a discovered instance whose `ExpiresTimestamp` tags parse to the instant `e` is
marked for termination by the classification loop if and only if the current time `now` is
strictly after `e`, where `now` stands for the readings of the clock during the loop (each
reading lies on the same side of `e` as `now`).  In a run of `real_main` whose discovery
returned these instances, the id is among the ids of a terminate call only if `now` is
strictly after `e`, and it is passed to the terminate call if `now` is strictly after `e`
and the address lookup succeeds. -/
theorem C4_marked_iff_now_after_expiry (clock : Nat → Time) (rs : List Reservation)
    (inst : Instance) (e now : Int)
    (hmem : ∃ r ∈ rs, inst ∈ r.Instances)
    (hkey : ∃ tag ∈ inst.Tags, tag.Key = "ExpiresTimestamp")
    (hparse : ∀ r ∈ rs, ∀ j ∈ r.Instances, j.InstanceId = inst.InstanceId →
      ∀ tag ∈ j.Tags, tag.Key = "ExpiresTimestamp" →
        (ParseRFC3339 tag.Value).2 = false ∧ (ParseRFC3339 tag.Value).1.ns = e)
    (hnow : ∀ k, (e < (clock k).ns ↔ e < now)) :
    (inst.InstanceId ∈ (scanReservations clock rs ScanState.init).expired_nodes ↔ e < now) ∧
    ∀ svc : Provider, svc.DescribeInstances instance_search = some rs →
      (∀ ids, Call.TerminateInstances ids ∈ (real_main clock svc).1 →
        (inst.InstanceId ∈ ids ↔ e < now)) ∧
      (svc.describeAddressesFails = false → e < now →
        ∃ ids, Call.TerminateInstances ids ∈ (real_main clock svc).1 ∧
          inst.InstanceId ∈ ids) := by
  have hiff : inst.InstanceId ∈ (scanReservations clock rs ScanState.init).expired_nodes ↔
      e < now := by
    constructor
    · intro h
      rcases scanReservations_mem clock _ rs ScanState.init h with
        h0 | ⟨r, hr, j, hj, hid, tag, ht, hk, k, ha⟩
      · simp [ScanState.init] at h0
      · have hp := (hparse r hr j hj hid.symm tag ht hk).2
        have : e < (clock k).ns := by
          simpa [Time.After, hp] using ha
        exact (hnow k).1 this
    · intro h
      rcases hkey with ⟨tag, ht, hk⟩
      rcases hmem with ⟨r, hr, hi⟩
      have hp := (hparse r hr inst hi rfl tag ht hk).2
      refine scanReservations_marks clock inst tag ht hk ?_ rs ScanState.init ⟨r, hr, hi⟩
      intro k
      simpa [Time.After, hp] using (hnow k).2 h
  refine ⟨hiff, ?_⟩
  intro svc hd
  constructor
  · intro ids hids
    rcases real_main_terminate clock svc ids hids with ⟨result, hd1, rfl⟩
    rw [hd] at hd1
    injection hd1 with hd1
    subst hd1
    exact hiff
  · intro ha hlt
    have hm := hiff.2 hlt
    exact ⟨_, real_main_terminates_marked clock svc rs hd ha (List.ne_nil_of_mem hm), hm⟩

/-- C4 at the scenario of the spec: expiry 2018-07-05T10:06:00Z; not marked when the clock
reads 10:05:00, not marked when it reads 10:06:00, marked and passed to the terminate call
when it reads 10:07:00; and an expiry written with a one-digit hour, 2099-07-05T9:06:00Z,
is not marked at that reading. -/
theorem C4_marked_iff_now_after_expiry_witness :
    (ParseRFC3339 "2018-07-05T10:06:00Z").1.ns = 1530785160 * nsPerSec ∧
    sixMinuteInstance.InstanceId ∉ (scanReservations (constClock (atUnix 1530785100))
      [{ Instances := [sixMinuteInstance] }] ScanState.init).expired_nodes ∧
    sixMinuteInstance.InstanceId ∉ (scanReservations (constClock (atUnix 1530785160))
      [{ Instances := [sixMinuteInstance] }] ScanState.init).expired_nodes ∧
    sixMinuteInstance.InstanceId ∈ (scanReservations (constClock (atUnix 1530785220))
      [{ Instances := [sixMinuteInstance] }] ScanState.init).expired_nodes ∧
    (∃ ids, Call.TerminateInstances ids ∈ (real_main (constClock (atUnix 1530785220))
        (healthyProvider [{ Instances := [sixMinuteInstance] }] [])).1 ∧
      sixMinuteInstance.InstanceId ∈ ids) ∧
    oneDigitHourInstance.InstanceId ∉ (scanReservations (constClock (atUnix 1530785220))
      [{ Instances := [oneDigitHourInstance] }] ScanState.init).expired_nodes :=
  ⟨by decide,
   fun h => absurd ((C4_marked_iff_now_after_expiry (constClock (atUnix 1530785100))
      [{ Instances := [sixMinuteInstance] }] sixMinuteInstance (1530785160 * nsPerSec)
      (1530785100 * nsPerSec) (by decide) (by decide) (by decide) (fun _ => Iff.rfl)).1.1 h)
      (by decide),
   fun h => absurd ((C4_marked_iff_now_after_expiry (constClock (atUnix 1530785160))
      [{ Instances := [sixMinuteInstance] }] sixMinuteInstance (1530785160 * nsPerSec)
      (1530785160 * nsPerSec) (by decide) (by decide) (by decide) (fun _ => Iff.rfl)).1.1 h)
      (by decide),
   (C4_marked_iff_now_after_expiry (constClock (atUnix 1530785220))
      [{ Instances := [sixMinuteInstance] }] sixMinuteInstance (1530785160 * nsPerSec)
      (1530785220 * nsPerSec) (by decide) (by decide) (by decide) (fun _ => Iff.rfl)).1.2
      (by decide),
   ((C4_marked_iff_now_after_expiry (constClock (atUnix 1530785220))
      [{ Instances := [sixMinuteInstance] }] sixMinuteInstance (1530785160 * nsPerSec)
      (1530785220 * nsPerSec) (by decide) (by decide) (by decide) (fun _ => Iff.rfl)).2
      (healthyProvider [{ Instances := [sixMinuteInstance] }] []) (by decide)).2 rfl
      (by decide),
   fun h => absurd ((C4_marked_iff_now_after_expiry (constClock (atUnix 1530785220))
      [{ Instances := [oneDigitHourInstance] }] oneDigitHourInstance (4086925560 * nsPerSec)
      (1530785220 * nsPerSec) (by decide) (by decide) (by decide) (fun _ => Iff.rfl)).1.1 h)
      (by decide)⟩

/-- C5: discovery asks the provider with the filters of `instance_search`; the classification
loop marks only ids of instances in which it meets a tag with key `ExpiresTimestamp`; and an
instance id all of whose instances in the store lack the tag `SlipwayCreated=true` or lack
a tag with key `ExpiresTimestamp` is never among the ids passed to the terminate call. -/
theorem C5_unselected_instance_never_terminated (clock : Nat → Time) (svc : Provider)
    (id : String)
    (h : ∀ r ∈ svc.reservations, ∀ i ∈ r.Instances, i.InstanceId = id →
      hasTag i.Tags "SlipwayCreated" "true" = false ∨
        hasTagKey i.Tags "ExpiresTimestamp" = false) :
    (∀ fs, Call.DescribeInstances fs ∈ (real_main clock svc).1 → fs = instance_search) ∧
    (∀ rs : List Reservation, id ∈ (scanReservations clock rs ScanState.init).expired_nodes →
      ∃ r ∈ rs, ∃ i ∈ r.Instances, i.InstanceId = id ∧
        hasTagKey i.Tags "ExpiresTimestamp" = true) ∧
    (∀ ids, Call.TerminateInstances ids ∈ (real_main clock svc).1 → id ∉ ids) := by
  refine ⟨?_, ?_, ?_⟩
  · intro fs hfs
    unfold real_main at hfs
    cases hd : svc.DescribeInstances instance_search with
    | none => simpa [hd] using hfs
    | some result =>
      simp only [hd] at hfs
      cases ha : svc.DescribeAddresses (instanceIdFilter
          (scanReservations clock result ScanState.init).expired_instance_ids) with
      | none => simpa [ha] using hfs
      | some result_eip =>
        simp only [ha] at hfs
        rcases releaseAddresses_calls svc (result_eip.map fun address => address.AllocationId)
          with ⟨rel, hrel, _⟩
        split at hfs
        · split at hfs
          · simpa using hfs
          · split at hfs
            · simpa using hfs
            · rw [hrel] at hfs
              simpa using hfs
        · simpa using hfs
  · intro rs hid
    rcases scanReservations_mem clock id rs ScanState.init hid with h0 | ⟨r, hr, i, hi, he, tag, ht, hk, _⟩
    · simp [ScanState.init] at h0
    · refine ⟨r, hr, i, hi, he.symm, ?_⟩
      simp only [hasTagKey, List.any_eq_true, decide_eq_true_eq]
      exact ⟨tag, ht, hk⟩
  · intro ids hids hmem
    rcases real_main_terminate clock svc ids hids with ⟨result, hd, rfl⟩
    rcases scanReservations_mem clock id result ScanState.init hmem with h0 | ⟨r, hr, i, hi, he, _⟩
    · simp [ScanState.init] at h0
    · rcases describeInstances_search svc result hd r hr i hi with ⟨⟨q, hq, hiq⟩, h1, h2, _⟩
      rcases h q hq i hiq he.symm with h3 | h3
      · rw [h1] at h3; cases h3
      · rw [h2] at h3; cases h3

/-- C5 on a store that holds an expired Slipway instance and an instance with a past
`ExpiresTimestamp` but `SlipwayCreated=false`: the latter is not passed to terminate. -/
theorem C5_unselected_instance_never_terminated_witness :
    (∀ r ∈ mixedProvider.reservations, ∀ i ∈ r.Instances, i.InstanceId = "i-0e3f" →
      hasTag i.Tags "SlipwayCreated" "true" = false ∨
        hasTagKey i.Tags "ExpiresTimestamp" = false) ∧
    Call.TerminateInstances ["i-0c2d"] ∈
      (real_main (constClock (atUnix 1530785220)) mixedProvider).1 ∧
    "i-0e3f" ∉ ["i-0c2d"] :=
  ⟨by decide, by decide,
   (C5_unselected_instance_never_terminated (constClock (atUnix 1530785220)) mixedProvider
      "i-0e3f" (by decide)).2.2 ["i-0c2d"] (by decide)⟩

/-- C6: in a run in which an address is released, the calls are, in this order: discovery,
the address lookup, one terminate call for the ids that the classification loop marked,
which succeeded, one wait-until-terminated call for the same ids, which returned without
error, and then release calls only.  So no release precedes them, and none is made when
either fails. -/
theorem C6_release_only_after_confirmed_termination (clock : Nat → Time) (svc : Provider)
    (a : String) (h : Call.ReleaseAddress a ∈ (real_main clock svc).1) :
    ∃ (result : List Reservation) (ids rel : List String),
      svc.DescribeInstances instance_search = some result ∧
      ids = (scanReservations clock result ScanState.init).expired_nodes ∧
      (real_main clock svc).1 =
        [Call.DescribeInstances instance_search,
         Call.DescribeAddresses (instanceIdFilter ids),
         Call.TerminateInstances ids,
         Call.WaitUntilInstanceTerminated (instanceIdFilter ids)] ++
        rel.map Call.ReleaseAddress ∧
      a ∈ rel ∧
      svc.terminateFails ids = false ∧
      svc.waitTerminatedFails (instanceIdFilter ids) = false := by
  rcases real_main_release clock svc a h with ⟨result, _, rel, hd, _, _, ha, htf, hwf, htrace⟩
  exact ⟨result, _, rel, hd, rfl, htrace, ha, htf, hwf⟩

/-- C6 on the mixed store after the expiry: the address is released, after terminate and
wait. -/
theorem C6_release_only_after_confirmed_termination_witness :
    Call.ReleaseAddress "eipalloc-77" ∈
      (real_main (constClock (atUnix 1530785220)) mixedProvider).1 ∧
    ∃ (result : List Reservation) (ids rel : List String),
      mixedProvider.DescribeInstances instance_search = some result ∧
      ids = (scanReservations (constClock (atUnix 1530785220)) result
        ScanState.init).expired_nodes ∧
      (real_main (constClock (atUnix 1530785220)) mixedProvider).1 =
        [Call.DescribeInstances instance_search,
         Call.DescribeAddresses (instanceIdFilter ids),
         Call.TerminateInstances ids,
         Call.WaitUntilInstanceTerminated (instanceIdFilter ids)] ++
        rel.map Call.ReleaseAddress ∧
      "eipalloc-77" ∈ rel ∧
      mixedProvider.terminateFails ids = false ∧
      mixedProvider.waitTerminatedFails (instanceIdFilter ids) = false :=
  ⟨by decide,
   C6_release_only_after_confirmed_termination (constClock (atUnix 1530785220)) mixedProvider
     "eipalloc-77" (by decide)⟩

/-- C8 fails as stated: a floating IP without any tag that is associated with an expired
Slipway instance is released. -/
theorem C8_untagged_address_is_released :
    untaggedAddress ∈ mixedProvider.addresses ∧
    hasTag untaggedAddress.Tags "SlipwayCreated" "true" = false ∧
    hasTagKey untaggedAddress.Tags "ExpiresTimestamp" = false ∧
    Call.ReleaseAddress untaggedAddress.AllocationId ∈
      (real_main (constClock (atUnix 1530785220)) mixedProvider).1 := by
  decide

/-- C8 as amended: every floating IP that a run releases is an address of the store that is
associated with an instance whose id the run passed to the terminate call, an instance of
the store that carries `SlipwayCreated=true` and a tag with key `ExpiresTimestamp`; the tags
of the floating IP itself are not consulted. -/
theorem C8_released_address_belongs_to_terminated_instance (clock : Nat → Time)
    (svc : Provider) (a : String) (h : Call.ReleaseAddress a ∈ (real_main clock svc).1) :
    ∃ address ∈ svc.addresses, address.AllocationId = a ∧
      ∃ id ids, address.InstanceId = some id ∧
        Call.TerminateInstances ids ∈ (real_main clock svc).1 ∧ id ∈ ids ∧
        ∃ r ∈ svc.reservations, ∃ i ∈ r.Instances, i.InstanceId = id ∧
          hasTag i.Tags "SlipwayCreated" "true" = true ∧
          hasTagKey i.Tags "ExpiresTimestamp" = true := by
  rcases real_main_release clock svc a h with
    ⟨result, result_eip, rel, hd, hda, hrel, ha, _, _, htrace⟩
  rcases hrel a ha with ⟨address, hmem, haid⟩
  unfold Provider.DescribeAddresses at hda
  split at hda
  · cases hda
  · injection hda with hda
    subst hda
    rcases List.mem_filter.1 hmem with ⟨hstore, hmatch⟩
    have hm : Filter.matchesAddress
        (Filter.mk "instance-id" (scanReservations clock result ScanState.init).expired_nodes)
        address = true :=
      List.all_eq_true.1 hmatch _ (by simp [instanceIdFilter])
    simp only [Filter.matchesAddress, if_true] at hm
    cases hassoc : address.InstanceId with
    | none => simp [hassoc] at hm
    | some id =>
      simp only [hassoc, decide_eq_true_eq] at hm
      refine ⟨address, hstore, haid, id, _, hassoc, ?_, hm, ?_⟩
      · rw [htrace]; simp
      · rcases scanReservations_mem clock id result ScanState.init hm with
          h0 | ⟨r, hr, i, hi, he, _⟩
        · simp [ScanState.init] at h0
        · rcases describeInstances_search svc result hd r hr i hi with ⟨⟨q, hq, hiq⟩, h1, h2, _⟩
          exact ⟨q, hq, i, hiq, he.symm, h1, h2⟩

/-- C8 as amended, on the mixed store after the expiry. -/
theorem C8_released_address_belongs_to_terminated_instance_witness :
    Call.ReleaseAddress "eipalloc-77" ∈
      (real_main (constClock (atUnix 1530785220)) mixedProvider).1 ∧
    ∃ address ∈ mixedProvider.addresses, address.AllocationId = "eipalloc-77" ∧
      ∃ id ids, address.InstanceId = some id ∧
        Call.TerminateInstances ids ∈
          (real_main (constClock (atUnix 1530785220)) mixedProvider).1 ∧ id ∈ ids ∧
        ∃ r ∈ mixedProvider.reservations, ∃ i ∈ r.Instances, i.InstanceId = id ∧
          hasTag i.Tags "SlipwayCreated" "true" = true ∧
          hasTagKey i.Tags "ExpiresTimestamp" = true :=
  ⟨by decide,
   C8_released_address_belongs_to_terminated_instance (constClock (atUnix 1530785220))
     mixedProvider "eipalloc-77" (by decide)⟩

/-! ## The Provisioner -/

theorem user_s_after_lookup_eq (current : CurrentUser) :
    user_s_after_lookup current = current.user_s := by
  unfold user_s_after_lookup
  split <;> rfl

theorem formatRFC3339_ne_empty (t : Time) : t.FormatRFC3339 ≠ "" := by
  intro h
  have h1 := congrArg String.data h
  simp [Time.FormatRFC3339] at h1

theorem name_tag_ne_empty (username : String) (t : Time) : name_tag username t ≠ "" := by
  intro h
  have h1 := congrArg String.data h
  have h2 : "_local_dev-".data = ['_', 'l', 'o', 'c', 'a', 'l', '_', 'd', 'e', 'v', '-'] := rfl
  simp [name_tag, h2] at h1

/-- C2 (the code departs from the claim): when `user.Current()` fails, the placeholder
`jdoe` is assigned to a variable local to the error branch, the outer `user_s` stays nil,
and `prepare_tags` panics on `user_s.Username`: it returns no tags, and `make_instances`
ends in the panic before any call to the provider. -/
theorem C2_failed_lookup_panics (config : config_s) (clock : Nat → Time) (svc : Ec2)
    (root_dev user_data : String) :
    prepare_tags config (clock 0) failedLookup = none ∧
    make_instances config clock failedLookup svc root_dev user_data = ([], Outcome.panicked) := by
  constructor <;> rfl

/-- C9 (the code departs from the claim): on 2018-07-05 the user `alice` gets the name tag
`alice_local_dev-2018075`, seven digits: the month is padded to two digits, the day is
not. -/
theorem C9_day_is_not_padded :
    (atUnix 1530784800).date = (2018, 7, 5) ∧
    name_tag "alice" (atUnix 1530784800) = "alice_local_dev-2018075" ∧
    (prepare_tags test_config (atUnix 1530784800) aliceLookup).map
      (fun r => tagValue r.1 "Name") = some (some "alice_local_dev-2018075") ∧
    name_tag "alice" (atUnix 1530784800) ≠ "alice_local_dev-20180705" := by
  decide

set_option maxRecDepth 20000 in
/-- C10 (the code departs from the claim): for an account whose user name is empty,
`prepare_tags` on the config of the test returns the `SlipwayUser` tag with an empty value;
it is the one tag for which the loop of `TestFunc_prepare_tags` reports a failure. -/
theorem C10_empty_username_gives_empty_tag :
    (prepare_tags test_config (atUnix 1530784800) namelessLookup).map
      (fun r => tagValue r.1 "SlipwayUser") = some (some "") ∧
    (prepare_tags test_config (atUnix 1530784800) namelessLookup).map
      (fun r => r.1.filter fun tag => decide (tag.Value = "")) =
      some [{ Key := "SlipwayUser", Value := "" }] := by
  decide

/-- For every config and every reading of the clock, when the user lookup gives a user,
`prepare_tags` returns the five tags `CreatedTimestamp`, `ExpiresTimestamp`, `Name`,
`SlipwayCreated`, `SlipwayUser`; the value of `SlipwayUser` is the user name as it is, the
other four values are never empty, and all five are non-empty when the user name is. -/
theorem prepare_tags_values (config : config_s) (current_time : Time) (u : User) (err : Bool) :
    ∃ tags expires,
      prepare_tags config current_time { user_s := some u, err := err } = some (tags, expires) ∧
      tags.map Tag.Key = lifecycleKeys ∧
      tagValue tags "SlipwayUser" = some u.Username ∧
      (∀ tag ∈ tags, tag.Key ≠ "SlipwayUser" → tag.Value ≠ "") ∧
      (u.Username ≠ "" → ∀ tag ∈ tags, tag.Value ≠ "") := by
  have hp : prepare_tags config current_time { user_s := some u, err := err } =
      some ([ { Key := "CreatedTimestamp", Value := current_time.FormatRFC3339 },
              { Key := "ExpiresTimestamp",
                Value := (expires_time config current_time).FormatRFC3339 },
              { Key := "Name", Value := name_tag u.Username current_time },
              { Key := "SlipwayCreated", Value := "true" },
              { Key := "SlipwayUser", Value := u.Username } ],
            expires_time config current_time) := by
    unfold prepare_tags
    rw [user_s_after_lookup_eq]
  refine ⟨_, _, hp, rfl, ?_, ?_, ?_⟩
  · simp [tagValue, List.find?]
  · intro tag htag hkey
    simp only [List.mem_cons, List.mem_singleton, List.not_mem_nil, or_false] at htag
    rcases htag with rfl | rfl | rfl | rfl | rfl
    · exact formatRFC3339_ne_empty _
    · exact formatRFC3339_ne_empty _
    · exact name_tag_ne_empty _ _
    · decide
    · exact absurd rfl hkey
  · intro hu tag htag
    simp only [List.mem_cons, List.mem_singleton, List.not_mem_nil, or_false] at htag
    rcases htag with rfl | rfl | rfl | rfl | rfl
    · exact formatRFC3339_ne_empty _
    · exact formatRFC3339_ne_empty _
    · exact name_tag_ne_empty _ _
    · decide
    · exact hu

/-- The tags that `allocate_public_ip` applies are the tags that `prepare_tags` builds from
the reading of the clock taken in this call, and they go to the address allocated for the
instance. -/
theorem allocate_public_ip_tags (config : config_s) (now : Time) (current : CurrentUser)
    (svc : Ec2) (instance_id : String) (r : List ProvisionCall × String × Bool)
    (hr : allocate_public_ip config now current svc instance_id = some r)
    (resource : String) (tags : List Tag) (h : ProvisionCall.CreateTags resource tags ∈ r.1) :
    (∃ ip, svc.allocateAddress instance_id = some (resource, ip)) ∧
    ∃ expires, prepare_tags config now current = some (tags, expires) := by
  unfold allocate_public_ip at hr
  cases hp : prepare_tags config now current with
  | none => simp [hp] at hr
  | some p =>
    obtain ⟨ptags, pexp⟩ := p
    simp only [hp] at hr
    cases ha : svc.allocateAddress instance_id with
    | none =>
      simp only [ha, Option.some.injEq] at hr
      subst hr
      simp at h
    | some q =>
      obtain ⟨allocation_id, elastic_ip⟩ := q
      simp only [ha] at hr
      split at hr
      · injection hr with hr
        subst hr
        simp at h
      · split at hr
        · injection hr with hr
          subst hr
          simp at h
        · injection hr with hr
          subst hr
          simp at h
          exact ⟨⟨elastic_ip, by rw [h.1]⟩, pexp, by rw [h.2]⟩

theorem allocateAll_tags (config : config_s) (clock : Nat → Time) (current : CurrentUser)
    (svc : Ec2) (resource : String) (tags : List Tag) (ids : List String) :
    ∀ n, ProvisionCall.CreateTags resource tags ∈ (allocateAll config clock current svc n ids).1 →
      ∃ k id, ids[k]? = some id ∧
        (∃ ip, svc.allocateAddress id = some (resource, ip)) ∧
        ∃ expires, prepare_tags config (clock (n + k)) current = some (tags, expires) := by
  induction ids with
  | nil => intro n h; simp [allocateAll] at h
  | cons id rest ih =>
    intro n h
    unfold allocateAll at h
    cases hr : allocate_public_ip config (clock n) current svc id with
    | none => simp [hr] at h
    | some r =>
      simp only [hr] at h
      rcases List.mem_append.1 h with h1 | h1
      · rcases allocate_public_ip_tags config (clock n) current svc id r hr resource tags h1
          with ⟨ha, hp⟩
        exact ⟨0, id, by simp, ha, hp⟩
      · rcases ih (n + 1) h1 with ⟨k, j, hk, ha, hp⟩
        refine ⟨k + 1, j, by simpa using hk, ha, ?_⟩
        have e : n + (k + 1) = n + 1 + k := by omega
        rw [e]
        exact hp

/-- The keys of the tags of `prepare_tags`, the values of `SlipwayCreated` and
`SlipwayUser`, and the tags as a whole when the readings of the clock are the same. -/
theorem prepare_tags_compare (config : config_s) (t0 t1 : Time) (current : CurrentUser)
    (tags0 tags1 : List Tag) (e0 e1 : Time)
    (h0 : prepare_tags config t0 current = some (tags0, e0))
    (h1 : prepare_tags config t1 current = some (tags1, e1)) :
    tags0.map Tag.Key = lifecycleKeys ∧ tags1.map Tag.Key = lifecycleKeys ∧
    tagValue tags1 "SlipwayCreated" = tagValue tags0 "SlipwayCreated" ∧
    tagValue tags1 "SlipwayUser" = tagValue tags0 "SlipwayUser" ∧
    (t1 = t0 → tags1 = tags0) := by
  unfold prepare_tags at h0 h1
  rw [user_s_after_lookup_eq] at h0 h1
  cases hu : current.user_s with
  | none => simp [hu] at h0
  | some u =>
    simp only [hu, Option.some.injEq, Prod.mk.injEq] at h0 h1
    rcases h0 with ⟨rfl, _⟩
    rcases h1 with ⟨rfl, _⟩
    refine ⟨rfl, rfl, ?_, ?_, ?_⟩
    · simp [tagValue, List.find?]
    · simp [tagValue, List.find?]
    · intro h; rw [h]

set_option maxRecDepth 20000 in
/-- C7 fails as stated: with a clock that advances one second per reading, the instance is
created with `CreatedTimestamp` 10:00:00 and `ExpiresTimestamp` 10:06:00 and its floating
IP is tagged with 10:00:01 and 10:06:01. -/
theorem C7_address_tags_differ :
    make_instances test_config tickingClock aliceLookup (healthyEc2 ["i-0c2d"]) "/dev/sda1" "" =
      ([ProvisionCall.RunInstances
          { DeviceName := "/dev/sda1", VolumeSize := 8, ImageId := "ami-4e79ed36",
            InstanceInitiatedShutdownBehavior := "terminate", InstanceType := "t2.micro",
            MaxCount := 1, MinCount := 1, SecurityGroupIds := [""], SubnetId := "",
            UserData := "", ResourceType := "instance",
            Tags := [⟨"CreatedTimestamp", "2018-07-05T10:00:00Z"⟩,
              ⟨"ExpiresTimestamp", "2018-07-05T10:06:00Z"⟩,
              ⟨"Name", "alice_local_dev-2018075"⟩, ⟨"SlipwayCreated", "true"⟩,
              ⟨"SlipwayUser", "alice"⟩] },
        ProvisionCall.AllocateAddress,
        ProvisionCall.WaitUntilInstanceRunning "i-0c2d",
        ProvisionCall.AssociateAddress "eipalloc-i-0c2d" "i-0c2d",
        ProvisionCall.CreateTags "eipalloc-i-0c2d"
          [⟨"CreatedTimestamp", "2018-07-05T10:00:01Z"⟩,
            ⟨"ExpiresTimestamp", "2018-07-05T10:06:01Z"⟩,
            ⟨"Name", "alice_local_dev-2018075"⟩, ⟨"SlipwayCreated", "true"⟩,
            ⟨"SlipwayUser", "alice"⟩]], Outcome.finished) := by
  decide

/-- C7 as amended: the tag set that `allocate_public_ip` applies to the floating IP of a
created instance is built anew by `prepare_tags` from the reading of the clock taken in
that call.  It has the same five keys as the tag set the instance was created with and
the same values of `SlipwayCreated` and `SlipwayUser`; it is the same tag set when the
reading of the clock equals the reading taken when the instances were created. -/
theorem C7_address_tags_rebuilt (config : config_s) (clock : Nat → Time)
    (current : CurrentUser) (svc : Ec2) (root_dev user_data resource : String)
    (tags : List Tag)
    (h : ProvisionCall.CreateTags resource tags ∈
      (make_instances config clock current svc root_dev user_data).1) :
    ∃ (input : RunInstancesInput) (instances : List String) (k : Nat) (id : String)
      (expires0 expiresk : Time),
      (make_instances config clock current svc root_dev user_data).1.head? =
        some (ProvisionCall.RunInstances input) ∧
      svc.runInstances = some instances ∧ instances[k]? = some id ∧
      (∃ ip, svc.allocateAddress id = some (resource, ip)) ∧
      prepare_tags config (clock 0) current = some (input.Tags, expires0) ∧
      prepare_tags config (clock (k + 1)) current = some (tags, expiresk) ∧
      input.Tags.map Tag.Key = lifecycleKeys ∧ tags.map Tag.Key = lifecycleKeys ∧
      tagValue tags "SlipwayCreated" = tagValue input.Tags "SlipwayCreated" ∧
      tagValue tags "SlipwayUser" = tagValue input.Tags "SlipwayUser" ∧
      (clock (k + 1) = clock 0 → tags = input.Tags) := by
  unfold make_instances at h ⊢
  cases hp : prepare_tags config (clock 0) current with
  | none => simp [hp] at h
  | some p =>
    obtain ⟨tags0, e0⟩ := p
    simp only [hp] at h ⊢
    cases hrun : svc.runInstances with
    | none => simp [hrun] at h
    | some instances =>
      simp only [hrun] at h ⊢
      have h1 : ProvisionCall.CreateTags resource tags ∈
          (allocateAll config clock current svc 1 instances).1 := by
        simpa using h
      rcases allocateAll_tags config clock current svc resource tags instances 1 h1 with
        ⟨k, id, hk, ha, ek, hpk⟩
      have e : 1 + k = k + 1 := by omega
      rw [e] at hpk
      rcases prepare_tags_compare config (clock 0) (clock (k + 1)) current tags0 tags e0 ek hp hpk
        with ⟨c1, c2, c3, c4, c5⟩
      exact ⟨_, instances, k, id, e0, ek, rfl, rfl, hk, ha, rfl, hpk, c1, c2, c3, c4, c5⟩

set_option maxRecDepth 20000 in
/-- C7 as amended, on the run with the clock that advances one second per reading. -/
theorem C7_address_tags_rebuilt_witness :
    ProvisionCall.CreateTags "eipalloc-i-0c2d"
        secondReadingTags ∈
      (make_instances test_config tickingClock aliceLookup (healthyEc2 ["i-0c2d"])
        "/dev/sda1" "").1 ∧
    ∃ (input : RunInstancesInput) (instances : List String) (k : Nat) (id : String)
      (expires0 expiresk : Time),
      (make_instances test_config tickingClock aliceLookup (healthyEc2 ["i-0c2d"])
        "/dev/sda1" "").1.head? = some (ProvisionCall.RunInstances input) ∧
      (healthyEc2 ["i-0c2d"]).runInstances = some instances ∧ instances[k]? = some id ∧
      (∃ ip, (healthyEc2 ["i-0c2d"]).allocateAddress id = some ("eipalloc-i-0c2d", ip)) ∧
      prepare_tags test_config (tickingClock 0) aliceLookup = some (input.Tags, expires0) ∧
      prepare_tags test_config (tickingClock (k + 1)) aliceLookup =
        some (secondReadingTags, expiresk) ∧
      input.Tags.map Tag.Key = lifecycleKeys ∧
      secondReadingTags.map Tag.Key = lifecycleKeys ∧
      tagValue secondReadingTags "SlipwayCreated" = tagValue input.Tags "SlipwayCreated" ∧
      tagValue secondReadingTags "SlipwayUser" = tagValue input.Tags "SlipwayUser" ∧
      (tickingClock (k + 1) = tickingClock 0 →
        secondReadingTags = input.Tags) :=
  ⟨by decide,
   C7_address_tags_rebuilt test_config tickingClock aliceLookup (healthyEc2 ["i-0c2d"])
     "/dev/sda1" "" "eipalloc-i-0c2d" _ (by decide)⟩

/-! ## The RFC 3339 layout read back -/

theorem absYearDay_spec (d : Int) : ∃ a b c e r : Int, 0 ≤ b ∧ b ≤ 3 ∧ 0 ≤ c ∧ c ≤ 24 ∧
    0 ≤ e ∧ e ≤ 3 ∧ 0 ≤ r ∧ r ≤ 365 ∧ (r = 365 → (e = 3 ∧ (c < 24 ∨ b = 3))) ∧
    absYearDay d = (400 * a + 100 * b + 4 * c + e + 1, r) ∧
    d = 146097 * a + 36524 * b + 1461 * c + 365 * e + r := by
  refine ⟨d / 146097, min (d % 146097 / 36524) 3, _, _, _, ?_, ?_, ?_, ?_, ?_, ?_, ?_, ?_, ?_,
    rfl, ?_⟩
  all_goals omega

theorem daysSinceEpoch_spec (a b c e : Int) (hb : 0 ≤ b) (hb3 : b ≤ 3) (hc : 0 ≤ c)
    (hc2 : c ≤ 24) (he : 0 ≤ e) (he3 : e ≤ 3) :
    daysSinceEpoch (400 * a + 100 * b + 4 * c + e + 1) =
      146097 * a + 36524 * b + 1461 * c + 365 * e := by
  simp only [daysSinceEpoch]
  have h0 : 400 * a + 100 * b + 4 * c + e + 1 - 1 = 400 * a + 100 * b + 4 * c + e := by omega
  have h1 : (400 * a + 100 * b + 4 * c + e) / 400 = a := by omega
  have h2 : (400 * a + 100 * b + 4 * c + e) % 400 = 100 * b + 4 * c + e := by omega
  have h3 : (100 * b + 4 * c + e) / 100 = b := by omega
  have h4 : (100 * b + 4 * c + e) % 100 = 4 * c + e := by omega
  have h5 : (4 * c + e) / 4 = c := by omega
  have h6 : (4 * c + e) % 4 = e := by omega
  rw [h0, h1, h2, h3, h4, h5, h6]

theorem isLeap_spec (a b c e : Int) (hb : 0 ≤ b) (hb3 : b ≤ 3) (hc : 0 ≤ c)
    (hc2 : c ≤ 24) (he : 0 ≤ e) (he3 : e ≤ 3) :
    isLeap (400 * a + 100 * b + 4 * c + e + 1) = true ↔ (e = 3 ∧ (c < 24 ∨ b = 3)) := by
  simp only [isLeap, Bool.and_eq_true, Bool.or_eq_true, decide_eq_true_eq, ne_eq]
  omega

theorem daysBefore_vals : daysBefore 0 = 0 ∧ daysBefore 1 = 31 ∧ daysBefore 2 = 59 ∧
    daysBefore 3 = 90 ∧ daysBefore 4 = 120 ∧ daysBefore 5 = 151 ∧ daysBefore 6 = 181 ∧
    daysBefore 7 = 212 ∧ daysBefore 8 = 243 ∧ daysBefore 9 = 273 ∧ daysBefore 10 = 304 ∧
    daysBefore 11 = 334 ∧ daysBefore 12 = 365 := by decide

/-- Month and day from the day of a non-leap year, as the second half of `absDate` computes
them. -/
theorem monthDay_core (day : Int) (h0 : 0 ≤ day) (h1 : day < 365) :
    ∃ m dd : Int, (if day ≥ daysBefore (day / 31 + 1)
        then (day / 31 + 2, day - daysBefore (day / 31 + 1) + 1)
        else (day / 31 + 1, day - daysBefore (day / 31) + 1)) = (m, dd) ∧
      1 ≤ m ∧ m ≤ 12 ∧ 1 ≤ dd ∧ daysBefore (m - 1) + dd ≤ daysBefore m ∧
      daysBefore (m - 1) + (dd - 1) = day := by
  obtain ⟨v0, v1, v2, v3, v4, v5, v6, v7, v8, v9, v10, v11, v12⟩ := daysBefore_vals
  have hq0 : 0 ≤ day / 31 := by omega
  have hq1 : day / 31 ≤ 11 := by omega
  generalize hq : day / 31 = q at hq0 hq1
  interval_cases q
  all_goals norm_num only [v0, v1, v2, v3, v4, v5, v6, v7, v8, v9, v10, v11, v12]
  all_goals split
  all_goals refine ⟨_, _, rfl, ?_⟩
  all_goals norm_num only [v0, v1, v2, v3, v4, v5, v6, v7, v8, v9, v10, v11, v12]
  all_goals (try simp only [true_and])
  all_goals omega

theorem daysIn_eq (m year : Int) (h1 : 1 ≤ m) (h2 : m ≤ 12) :
    daysIn m year = daysBefore m - daysBefore (m - 1) +
      (if isLeap year = true ∧ m = 2 then 1 else 0) := by
  obtain ⟨v0, v1, v2, v3, v4, v5, v6, v7, v8, v9, v10, v11, v12⟩ := daysBefore_vals
  cases hl : isLeap year <;> interval_cases m <;>
    norm_num [daysIn, hl, v0, v1, v2, v3, v4, v5, v6, v7, v8, v9, v10, v11, v12]

theorem monthDay_spec (year yday : Int) (h0 : 0 ≤ yday)
    (h1 : yday < 365 ∨ (yday = 365 ∧ isLeap year = true)) :
    ∃ m dd : Int, monthDay year yday = (m, dd) ∧ 1 ≤ m ∧ m ≤ 12 ∧ 1 ≤ dd ∧ dd ≤ daysIn m year ∧
      daysBefore (m - 1) + (if isLeap year = true ∧ m ≥ 3 then 1 else 0) + (dd - 1) = yday := by
  obtain ⟨v0, v1, v2, v3, v4, v5, v6, v7, v8, v9, v10, v11, v12⟩ := daysBefore_vals
  cases hl : isLeap year
  · have hy : yday < 365 := by
      rcases h1 with h | ⟨_, h⟩
      · exact h
      · rw [hl] at h; cases h
    rcases monthDay_core yday h0 hy with ⟨m, dd, hm, c1, c2, c3, c4, c5⟩
    refine ⟨m, dd, ?_, c1, c2, c3, ?_, ?_⟩
    · simp only [monthDay, hl, Bool.false_eq_true, false_and, if_false]
      exact hm
    · rw [daysIn_eq m year c1 c2, hl]
      simp only [Bool.false_eq_true, false_and, if_false]
      omega
    · simp only [Bool.false_eq_true, false_and, if_false]
      omega
  · by_cases h59 : yday = 59
    · refine ⟨2, 29, ?_, by omega, by omega, by omega, ?_, ?_⟩
      · simp [monthDay, hl, h59]
      · simp [daysIn, hl]
      · simp [v1, h59]
    · by_cases hgt : yday > 59
      · have hy : yday ≤ 365 := by omega
        rcases monthDay_core (yday - 1) (by omega) (by omega) with ⟨m, dd, hm, c1, c2, c3, c4, c5⟩
        have hm3 : 3 ≤ m := by
          by_contra hcon
          have hm2 : m = 1 ∨ m = 2 := by omega
          rcases hm2 with rfl | rfl
          · norm_num only [v0, v1] at c4 c5; omega
          · norm_num only [v2, v1] at c4 c5; omega
        refine ⟨m, dd, ?_, c1, c2, c3, ?_, ?_⟩
        · have e1 : (31 : Int) + 29 - 1 = 59 := by norm_num
          simp only [monthDay, hl, true_and, e1, if_neg h59, if_pos hgt]
          exact hm
        · rw [daysIn_eq m year c1 c2, hl]
          have : ¬ (m = 2) := by omega
          simp only [this, and_false, if_false]
          omega
        · have : m ≥ 3 := hm3
          simp only [this, and_self, if_true]
          omega
      · rcases monthDay_core yday h0 (by omega) with ⟨m, dd, hm, c1, c2, c3, c4, c5⟩
        have hm3 : m ≤ 2 := by
          by_contra hcon
          have hmono : 59 ≤ daysBefore (m - 1) := by
            have : 3 ≤ m := by omega
            interval_cases m <;> norm_num only [v2, v3, v4, v5, v6, v7, v8, v9, v10, v11]
          omega
        refine ⟨m, dd, ?_, c1, c2, c3, ?_, ?_⟩
        · have e1 : (31 : Int) + 29 - 1 = 59 := by norm_num
          simp only [monthDay, hl, true_and, e1, if_neg h59, if_neg hgt]
          exact hm
        · rw [daysIn_eq m year c1 c2, hl]
          have hm2 : m = 1 ∨ m = 2 := by omega
          rcases hm2 with rfl | rfl
          · norm_num only [v0, v1] at c4 c5 ⊢; omega
          · norm_num only [v2, v1] at c4 c5 ⊢; omega
        · have : ¬ (m ≥ 3) := by omega
          simp only [this, and_false, if_false]
          omega

theorem absDate_spec (d : Int) :
    ∃ y m dd : Int, absDate d = (y, m, dd) ∧ 1 ≤ m ∧ m ≤ 12 ∧ 1 ≤ dd ∧ dd ≤ daysIn m y ∧
      dateToDays y m dd = d := by
  rcases absYearDay_spec d with ⟨a, b, c, e, r, hb0, hb3, hc0, hc24, he0, he3, hr0, hr365, hleap,
    hyd, hd⟩
  have hl := isLeap_spec a b c e hb0 hb3 hc0 hc24 he0 he3
  have hr : r < 365 ∨ (r = 365 ∧ isLeap (400 * a + 100 * b + 4 * c + e + 1) = true) := by
    by_cases h : r = 365
    · exact Or.inr ⟨h, hl.2 (hleap h)⟩
    · exact Or.inl (by omega)
  rcases monthDay_spec (400 * a + 100 * b + 4 * c + e + 1) r hr0 hr with
    ⟨m, dd, hmd, c1, c2, c3, c4, c5⟩
  refine ⟨400 * a + 100 * b + 4 * c + e + 1, m, dd, ?_, c1, c2, c3, c4, ?_⟩
  · simp only [absDate, hyd, hmd]
  · simp only [dateToDays, daysSinceEpoch_spec a b c e hb0 hb3 hc0 hc24 he0 he3]
    omega

theorem digitVal_digitChar (k : Nat) : digitVal (digitChar k) = some (k % 10) := by
  have h : ∀ j, j < 10 → digitVal (Char.ofNat (48 + j)) = some j := by decide
  exact h (k % 10) (Nat.mod_lt _ (by decide))

theorem appendInt_two (n : Int) (h0 : 0 ≤ n) (h1 : n < 100) :
    appendInt n 2 = [digitChar (n.natAbs / 10), digitChar n.natAbs] := by
  have hu : n.natAbs < 100 := by omega
  have hn : ¬ n < 0 := by omega
  have hd : n.natAbs / 10 < 10 := by omega
  simp [appendInt, digitsRev, hn, hd]

theorem appendInt_four (n : Int) (h0 : 0 ≤ n) (h1 : n ≤ 9999) :
    appendInt n 4 = [digitChar (n.natAbs / 10 / 10 / 10), digitChar (n.natAbs / 10 / 10),
      digitChar (n.natAbs / 10), digitChar n.natAbs] := by
  have hu : n.natAbs < 10000 := by omega
  have hn : ¬ n < 0 := by omega
  have hd : n.natAbs / 10 / 10 / 10 < 10 := by omega
  simp [appendInt, digitsRev, hn, hd]

theorem getnum_two (n : Int) (h0 : 0 ≤ n) (h1 : n < 100) (rest : List Char) (fixed : Bool) :
    getnum (appendInt n 2 ++ rest) fixed = some (n.natAbs, rest) := by
  rw [appendInt_two n h0 h1]
  have hu : n.natAbs < 100 := by omega
  simp only [getnum, List.cons_append, List.nil_append, digitVal_digitChar]
  simp only [Option.some.injEq, Prod.mk.injEq, and_true]
  omega

theorem takeDigits_four (n : Int) (h0 : 0 ≤ n) (h1 : n ≤ 9999) (rest : List Char) :
    takeDigits 4 (appendInt n 4 ++ rest) = some (n.natAbs, rest) := by
  rw [appendInt_four n h0 h1]
  have hu : n.natAbs < 10000 := by omega
  simp only [takeDigits, List.cons_append, List.nil_append, digitVal_digitChar]
  simp only [Option.some.injEq, Prod.mk.injEq, and_true]
  omega

theorem parseZone_signed (sign : Char) (hs : sign = '+' ∨ sign = '-') (hh mm : Nat)
    (hh1 : hh ≤ 24) (hm1 : mm < 60) :
    parseZone (sign :: (appendInt hh 2 ++ ':' :: appendInt mm 2)) =
      some (if sign = '-' then -(((hh * 60 + mm) * 60 : Nat) : Int)
        else (((hh * 60 + mm) * 60 : Nat) : Int)) := by
  have h1 := getnum_two hh (by omega) (by omega) (':' :: appendInt mm 2) true
  have h2 := getnum_two mm (by omega) (by omega) [] true
  rw [List.append_nil] at h2
  rw [Int.natAbs_ofNat] at h1 h2
  have e2 : hh ≤ 24 ∧ mm ≤ 60 := by omega
  rcases hs with rfl | rfl
  · simp [parseZone, h1, h2, e2]
  · simp [parseZone, h1, h2, e2]

theorem formatZone_spec (off : Int) (h60 : off % 60 = 0) (hlo : -86400 < off)
    (hhi : off < 86400) :
    parseZone (formatZone off) = some off ∧
    parseFraction (formatZone off) = (0, formatZone off) := by
  by_cases h0 : off = 0
  · subst h0
    exact ⟨rfl, rfl⟩
  · have hd : Int.tdiv off 60 = off / 60 := Int.tdiv_eq_ediv_of_dvd (Int.dvd_of_emod_eq_zero h60)
    by_cases hneg : off / 60 < 0
    · obtain ⟨hh, hhh⟩ := Int.eq_ofNat_of_zero_le (show 0 ≤ -(off / 60) / 60 by omega)
      obtain ⟨mm, hmm⟩ := Int.eq_ofNat_of_zero_le (show 0 ≤ -(off / 60) % 60 by omega)
      have hz := parseZone_signed '-' (Or.inr rfl) hh mm (by omega) (by omega)
      have hf : formatZone off = '-' :: (appendInt hh 2 ++ ':' :: appendInt mm 2) := by
        simp [formatZone, h0, hd, hneg, hhh, hmm]
      rw [hf, hz]
      constructor
      · simp only [if_true, Option.some.injEq]; push_cast; omega
      · rw [appendInt_two _ (by omega) (by omega)]
        simp [parseFraction]
    · obtain ⟨hh, hhh⟩ := Int.eq_ofNat_of_zero_le (show 0 ≤ off / 60 / 60 by omega)
      obtain ⟨mm, hmm⟩ := Int.eq_ofNat_of_zero_le (show 0 ≤ off / 60 % 60 by omega)
      have hz := parseZone_signed '+' (Or.inl rfl) hh mm (by omega) (by omega)
      have hf : formatZone off = '+' :: (appendInt hh 2 ++ ':' :: appendInt mm 2) := by
        simp [formatZone, h0, hd, hneg, hhh, hmm]
      rw [hf, hz]
      constructor
      · have : ¬ ('+' = '-') := by decide
        simp only [this, if_false, Option.some.injEq]; push_cast; omega
      · rw [appendInt_two _ (by omega) (by omega)]
        simp [parseFraction]

theorem daysIn_le (m y : Int) : daysIn m y ≤ 31 := by
  unfold daysIn
  split
  · split <;> omega
  · split <;> omega

theorem parse_fields (y mo d h mi s : Nat) (zone : List Char) (off : Int)
    (hy : y ≤ 9999) (hmo1 : 1 ≤ mo) (hmo2 : mo ≤ 12) (hd1 : 1 ≤ d)
    (hd2 : (d : Int) ≤ daysIn mo y) (hh : h < 24) (hmi : mi < 60) (hs : s < 60)
    (hz : parseZone zone = some off) (hf : parseFraction zone = (0, zone)) :
    parseRFC3339Nanos (appendInt y 4 ++ '-' :: (appendInt mo 2 ++ '-' :: (appendInt d 2 ++
      'T' :: (appendInt h 2 ++ ':' :: (appendInt mi 2 ++ ':' :: (appendInt s 2 ++ zone)))))) =
      some (((dateToDays y mo d - unixEpochDays) * 86400 + (h * 3600 + mi * 60 + s : Nat) - off) *
        nsPerSec + (0 : Nat)) := by
  have hd3 : d < 100 := by
    have := daysIn_le mo y
    omega
  have t1 := takeDigits_four y (by omega) (by omega)
  have t2 := fun rest => getnum_two mo (by omega) (by omega) rest true
  have t3 := fun rest => getnum_two d (by omega) (by omega) rest true
  have t4 := fun rest => getnum_two h (by omega) (by omega) rest false
  have t5 := fun rest => getnum_two mi (by omega) (by omega) rest true
  have t6 := fun rest => getnum_two s (by omega) (by omega) rest true
  simp only [Int.natAbs_ofNat] at t1 t2 t3 t4 t5 t6
  unfold parseRFC3339Nanos
  simp only [t1, t2, t3, t4, t5, t6, hf, hz]
  rw [if_pos ⟨hmo1, hmo2, hd1, hd2, hh, hmi, hs⟩]

theorem parse_format (t : Time) (hy0 : 0 ≤ t.date.1) (hy1 : t.date.1 ≤ 9999)
    (h60 : t.loc t.unix % 60 = 0) (hlo : -86400 < t.loc t.unix) (hhi : t.loc t.unix < 86400) :
    parseRFC3339Nanos t.FormatRFC3339.data = some (t.unix * nsPerSec) := by
  rcases absDate_spec ((t.unix + t.loc t.unix) / 86400 + unixEpochDays) with
    ⟨y, m, dd, hdate, hm1, hm2, hd1, hd2, hdays⟩
  have hdate1 : t.date = (y, m, dd) := hdate
  rw [hdate1] at hy0 hy1
  simp only at hy0 hy1
  rcases formatZone_spec (t.loc t.unix) h60 hlo hhi with ⟨hz, hf⟩
  obtain ⟨yn, rfl⟩ := Int.eq_ofNat_of_zero_le hy0
  obtain ⟨mn, rfl⟩ := Int.eq_ofNat_of_zero_le (show 0 ≤ m by omega)
  obtain ⟨dn, rfl⟩ := Int.eq_ofNat_of_zero_le (show 0 ≤ dd by omega)
  obtain ⟨hn, hhn⟩ := Int.eq_ofNat_of_zero_le
    (show 0 ≤ (t.unix + t.loc t.unix) % 86400 / 3600 by omega)
  obtain ⟨min, hmin⟩ := Int.eq_ofNat_of_zero_le
    (show 0 ≤ (t.unix + t.loc t.unix) % 86400 % 3600 / 60 by omega)
  obtain ⟨sn, hsn⟩ := Int.eq_ofNat_of_zero_le
    (show 0 ≤ (t.unix + t.loc t.unix) % 86400 % 60 by omega)
  have hfmt : t.FormatRFC3339.data = appendInt yn 4 ++ '-' :: (appendInt mn 2 ++ '-' ::
      (appendInt dn 2 ++ 'T' :: (appendInt hn 2 ++ ':' :: (appendInt min 2 ++ ':' ::
      (appendInt sn 2 ++ formatZone (t.loc t.unix)))))) := by
    simp only [Time.FormatRFC3339, hdate, hhn, hmin, hsn, List.append_assoc, List.cons_append]
  rw [hfmt, parse_fields yn mn dn hn min sn _ _ (by omega) (by omega) (by omega) (by omega) hd2
    (by omega) (by omega) (by omega) hz hf, hdays]
  simp only [unixEpochDays, nsPerSec, Option.some.injEq]
  push_cast
  rw [← hhn, ← hmin, ← hsn]
  have key : ((t.unix + t.loc t.unix) / 86400 + 719162 - 719162) * 86400 +
      ((t.unix + t.loc t.unix) % 86400 / 3600 * 3600 +
        (t.unix + t.loc t.unix) % 86400 % 3600 / 60 * 60 +
        (t.unix + t.loc t.unix) % 86400 % 60) - t.loc t.unix = t.unix := by omega
  rw [key]
  simp

/-- A time in the range of the layout, formatted and parsed back, is the same instant cut
to the whole second. -/
theorem parseRFC3339_format (t : Time) (h : t.inLayoutRange) :
    (ParseRFC3339 t.FormatRFC3339).2 = false ∧
    (ParseRFC3339 t.FormatRFC3339).1.ns = t.unix * nsPerSec := by
  rcases h with ⟨h1, h2, h3, h4, h5⟩
  have hp := parse_format t h1 h2 h3 h4 h5
  unfold ParseRFC3339
  rw [hp]
  exact ⟨rfl, rfl⟩

/-- An integer in the range of `int64` is not changed by wrapping. -/
theorem wrapInt64_of_fits (x : Int) (h0 : -(2 ^ 63) ≤ x) (h1 : x < 2 ^ 63) : wrapInt64 x = x := by
  unfold wrapInt64
  omega

/-! ## The expiry written by the Provisioner -/

theorem mul60_of_isPositive (d : Float64) (h : d.isPositive = true) :
    (∃ mant exp, d.mul60 = Float64.finite false mant exp) ∨ d.mul60 = Float64.inf false := by
  cases d with
  | finite neg mant exp =>
    simp only [Float64.isPositive, Bool.and_eq_true, Bool.not_eq_true', decide_eq_true_eq] at h
    rcases h with ⟨rfl, _⟩
    simp only [Float64.mul60]
    split
    · exact Or.inr rfl
    · exact Or.inl ⟨_, _, rfl⟩
  | inf neg =>
    simp only [Float64.isPositive, Bool.not_eq_true'] at h
    subst h
    exact Or.inr rfl
  | nan => simp [Float64.isPositive] at h

theorem magnitude_trunc (mant : Nat) (exp : Int) :
    (((if 0 ≤ exp then mant * 2 ^ exp.toNat else mant / 2 ^ (-exp).toNat : Nat) : Nat) : ℚ) ≤
      (mant : ℚ) * (2 : ℚ) ^ exp ∧
    (mant : ℚ) * (2 : ℚ) ^ exp <
      ((if 0 ≤ exp then mant * 2 ^ exp.toNat else mant / 2 ^ (-exp).toNat : Nat) : ℚ) + 1 := by
  by_cases he : 0 ≤ exp
  · obtain ⟨k, rfl⟩ := Int.eq_ofNat_of_zero_le he
    simp only [he, if_true, Int.toNat_ofNat, zpow_natCast]
    push_cast
    constructor
    · exact le_refl _
    · linarith
  · simp only [he, if_false]
    have hk : exp = -((-exp).toNat : Int) := by
      rw [Int.toNat_of_nonneg (by omega)]; omega
    generalize (-exp).toNat = k at hk
    subst hk
    rw [zpow_neg, zpow_natCast]
    have hp : (0 : ℚ) < 2 ^ k := by positivity
    have hdm := Nat.div_add_mod mant (2 ^ k)
    have hlt : mant % 2 ^ k < 2 ^ k := Nat.mod_lt _ (by positivity)
    have hq : (mant : ℚ) = 2 ^ k * ((mant / 2 ^ k : Nat) : ℚ) + ((mant % 2 ^ k : Nat) : ℚ) := by
      exact_mod_cast hdm.symm
    have hlt' : ((mant % 2 ^ k : Nat) : ℚ) < 2 ^ k := by exact_mod_cast hlt
    have hge' : (0 : ℚ) ≤ ((mant % 2 ^ k : Nat) : ℚ) := Nat.cast_nonneg _
    constructor
    · rw [le_mul_inv_iff₀ hp]
      nlinarith
    · rw [mul_inv_lt_iff₀ hp]
      nlinarith

theorem toInt64_trunc (mant : Nat) (exp : Int)
    (h0 : 0 ≤ (Float64.finite false mant exp).toInt64) :
    (((Float64.finite false mant exp).toInt64 : Int) : ℚ) ≤ (Float64.finite false mant exp).toRat ∧
    (Float64.finite false mant exp).toRat < ((Float64.finite false mant exp).toInt64 : Int) + 1 := by
  have hm := magnitude_trunc mant exp
  generalize hmag : (if 0 ≤ exp then mant * 2 ^ exp.toNat else mant / 2 ^ (-exp).toNat : Nat) = mag
    at hm
  have hv : (Float64.finite false mant exp).toInt64 =
      if minInt64 ≤ (mag : Int) ∧ (mag : Int) < 2 ^ 63 then (mag : Int) else minInt64 := by
    simp only [Float64.toInt64, Bool.false_eq_true, if_false, hmag]
  rw [hv] at h0 ⊢
  have ht : (Float64.finite false mant exp).toRat = (mant : ℚ) * (2 : ℚ) ^ exp := by
    simp [Float64.toRat]
  rw [ht]
  split at h0
  · rename_i hr
    rw [if_pos hr]
    exact_mod_cast hm
  · simp [minInt64] at h0

/-- The minutes of a positive duration are the `float64` product `60 * d` with its fraction
cut off. -/
theorem minutes_trunc (d : Float64) (hpos : d.isPositive = true) (h0 : 0 ≤ d.mul60.toInt64) :
    ((d.mul60.toInt64 : Int) : ℚ) ≤ d.mul60.toRat ∧ d.mul60.toRat < (d.mul60.toInt64 : Int) + 1 := by
  rcases mul60_of_isPositive d hpos with ⟨mant, exp, h⟩ | h
  · rw [h] at h0 ⊢
    exact toInt64_trunc mant exp h0
  · rw [h] at h0
    simp [Float64.toInt64, minInt64] at h0

/-- The `float64` product `60 * d` is the exact product when `60 * mant` has at most 53
bits and the product is below `2^1024`. -/
theorem mul60_exact (neg : Bool) (mant : Nat) (exp : Int) (h : 60 * mant < 2 ^ 53)
    (hfin : ¬ (0 ≤ exp ∧ 2 ^ 1024 ≤ 60 * mant * 2 ^ exp.toNat)) :
    (Float64.finite neg mant exp).mul60 = Float64.finite neg (60 * mant) exp ∧
    (Float64.finite neg mant exp).mul60.toRat = 60 * (Float64.finite neg mant exp).toRat := by
  have he : excessBits (60 * mant) (60 * mant) = 0 := by
    cases hm : 60 * mant with
    | zero => rfl
    | succ n =>
      rw [hm] at h
      simp only [excessBits, h, if_true]
  have hr : roundMant (60 * mant) exp = (60 * mant, exp) := by
    simp only [roundMant, he, if_true]
  have hm : (Float64.finite neg mant exp).mul60 = Float64.finite neg (60 * mant) exp := by
    simp only [Float64.mul60, hr, hfin, if_false]
  refine ⟨hm, ?_⟩
  rw [hm]
  simp only [Float64.toRat]
  push_cast
  ring


set_option maxRecDepth 20000 in
/-- C3 fails as stated: for the duration `2^-7` hours (28.125 seconds) the minutes
`60 * 2^-7 = 0.46875` are cut to 0 by the conversion to `time.Duration`, the
`ExpiresTimestamp` tag equals the `CreatedTimestamp` tag, and the instant it parses to is
more than a second before the call time plus the duration. -/
theorem C3_fraction_of_a_minute_is_dropped :
    fractionConfig.duration.isPositive = true ∧
    fractionConfig.duration.toRat = 1 / 128 ∧
    (prepare_tags fractionConfig (atUnix 1530784800) aliceLookup).map
      (fun r => (tagValue r.1 "CreatedTimestamp", tagValue r.1 "ExpiresTimestamp")) =
      some (some "2018-07-05T10:00:00Z", some "2018-07-05T10:00:00Z") ∧
    (ParseRFC3339 "2018-07-05T10:00:00Z").1.ns = (atUnix 1530784800).ns ∧
    (((ParseRFC3339 "2018-07-05T10:00:00Z").1.ns : Int) : ℚ) + 10 ^ 9 <
      ((atUnix 1530784800).ns : ℚ) + fractionConfig.duration.toRat * 3600 * 10 ^ 9 := by
  have h4 : (ParseRFC3339 "2018-07-05T10:00:00Z").1.ns = (atUnix 1530784800).ns := by decide
  refine ⟨by decide, ?_, by decide, h4, ?_⟩
  · norm_num [fractionConfig, Float64.toRat]
  · rw [h4]
    norm_num [fractionConfig, Float64.toRat]

/-- C3 as amended: for every duration `d > 0` and every call time, let `m` be the number of
minutes `60 * d`, computed in `float64` and cut to a whole number by the conversion to
`time.Duration`.  When `m` minutes fit in a `time.Duration` and the call time and the expiry
are in the range of the layout, the returned expiry is the call time plus `m` minutes, the
`ExpiresTimestamp` tag parses as RFC 3339 to that instant cut to the whole second, and this
is the parsed `CreatedTimestamp` plus `m` minutes; `m` is at most the product `60 * d` and
less than a minute below it. -/
theorem C3_expiry_is_created_plus_whole_minutes (config : config_s) (current_time : Time)
    (current : CurrentUser) (tags : List Tag) (expires : Time)
    (hpos : config.duration.isPositive = true)
    (hfit : 0 ≤ config.duration.mul60.toInt64 ∧ Minute * config.duration.mul60.toInt64 < 2 ^ 63)
    (hnow : current_time.inLayoutRange)
    (hexp : (expires_time config current_time).inLayoutRange)
    (h : prepare_tags config current_time current = some (tags, expires)) :
    ∃ created_tag expires_tag,
      tagValue tags "CreatedTimestamp" = some created_tag ∧
      tagValue tags "ExpiresTimestamp" = some expires_tag ∧
      expires.ns = current_time.ns + config.duration.mul60.toInt64 * Minute ∧
      (ParseRFC3339 created_tag).2 = false ∧
      (ParseRFC3339 expires_tag).2 = false ∧
      (ParseRFC3339 expires_tag).1.ns =
        (current_time.unix + 60 * config.duration.mul60.toInt64) * nsPerSec ∧
      (ParseRFC3339 expires_tag).1.ns =
        (ParseRFC3339 created_tag).1.ns + config.duration.mul60.toInt64 * Minute ∧
      ((config.duration.mul60.toInt64 : Int) : ℚ) ≤ config.duration.mul60.toRat ∧
      config.duration.mul60.toRat < (config.duration.mul60.toInt64 : Int) + 1 := by
  have htr := minutes_trunc config.duration hpos hfit.1
  have hw : wrapInt64 (Minute * config.duration.mul60.toInt64) =
      Minute * config.duration.mul60.toInt64 := by
    apply wrapInt64_of_fits _ _ hfit.2
    have : 0 ≤ Minute * config.duration.mul60.toInt64 :=
      Int.mul_nonneg (by decide) hfit.1
    omega
  have hns : (expires_time config current_time).ns =
      current_time.ns + config.duration.mul60.toInt64 * Minute := by
    simp only [expires_time, Time.Add, hw]
    rw [Int.mul_comm]
  have hunix : (expires_time config current_time).unix =
      current_time.unix + 60 * config.duration.mul60.toInt64 := by
    simp only [Time.unix, hns, Minute, nsPerSec]
    omega
  rcases parseRFC3339_format current_time hnow with ⟨c1, c2⟩
  rcases parseRFC3339_format (expires_time config current_time) hexp with ⟨e1, e2⟩
  unfold prepare_tags at h
  rw [user_s_after_lookup_eq] at h
  cases hu : current.user_s with
  | none => simp [hu] at h
  | some u =>
    simp only [hu, Option.some.injEq, Prod.mk.injEq] at h
    rcases h with ⟨rfl, rfl⟩
    refine ⟨current_time.FormatRFC3339, (expires_time config current_time).FormatRFC3339,
      ?_, ?_, hns, c1, e1, ?_, ?_, htr.1, htr.2⟩
    · simp [tagValue, List.find?]
    · simp [tagValue, List.find?]
    · rw [e2, hunix]
    · rw [e2, c2, hunix]
      simp only [Minute, nsPerSec]
      omega

set_option maxRecDepth 20000 in
/-- C3 as amended, on the config of the test: the duration 0.1 gives 6 minutes, and a call at
2018-07-05T10:00:00Z gives the expiry 10:06:00. -/
theorem C3_expiry_is_created_plus_whole_minutes_witness :
    test_config.duration.mul60.toInt64 = 6 ∧
    ∃ created_tag expires_tag,
      tagValue (prepare_tags_value test_config (atUnix 1530784800) aliceLookup).1
        "CreatedTimestamp" = some created_tag ∧
      tagValue (prepare_tags_value test_config (atUnix 1530784800) aliceLookup).1
        "ExpiresTimestamp" = some expires_tag ∧
      (prepare_tags_value test_config (atUnix 1530784800) aliceLookup).2.ns =
        (atUnix 1530784800).ns + test_config.duration.mul60.toInt64 * Minute ∧
      (ParseRFC3339 created_tag).2 = false ∧
      (ParseRFC3339 expires_tag).2 = false ∧
      (ParseRFC3339 expires_tag).1.ns =
        ((atUnix 1530784800).unix + 60 * test_config.duration.mul60.toInt64) * nsPerSec ∧
      (ParseRFC3339 expires_tag).1.ns =
        (ParseRFC3339 created_tag).1.ns + test_config.duration.mul60.toInt64 * Minute ∧
      ((test_config.duration.mul60.toInt64 : Int) : ℚ) ≤ test_config.duration.mul60.toRat ∧
      test_config.duration.mul60.toRat < (test_config.duration.mul60.toInt64 : Int) + 1 :=
  ⟨by decide,
   C3_expiry_is_created_plus_whole_minutes test_config (atUnix 1530784800) aliceLookup _ _
     (by decide) (by decide) (by unfold Time.inLayoutRange; decide)
     (by unfold Time.inLayoutRange; decide) rfl⟩

/-! ## The boot script of the Provisioner -/

/-- Each character of the standard alphabet decodes to its index and is neither the padding
character nor a line break. -/
theorem encodeChar_spec (n : Nat) (h : n < 64) :
    decodeVal (encodeChar n) = some n ∧ encodeChar n ≠ '=' ∧ encodeChar n ≠ '\r' ∧
      encodeChar n ≠ '\n' := by
  have key : ∀ m, m < 64 → decodeVal (encodeChar m) = some m ∧ encodeChar m ≠ '=' ∧
      encodeChar m ≠ '\r' ∧ encodeChar m ≠ '\n' := by decide
  exact key n h

/-- The quanta written for well-formed bytes decode to these bytes. -/
theorem decodeQuanta_encodeQuanta :
    (bs : Bytes) → Bytes.wellFormed bs → decodeQuanta (encodeQuanta bs) = some bs
  | [], _ => rfl
  | [b0], h => by
    have h0 : b0 < 256 := h b0 (by simp)
    obtain ⟨d0, p0, _, _⟩ := encodeChar_spec (b0 * 65536 / 262144 % 64) (by omega)
    obtain ⟨d1, p1, _, _⟩ := encodeChar_spec (b0 * 65536 / 4096 % 64) (by omega)
    simp only [encodeQuanta, decodeQuanta, d0, d1, and_self, if_true, Option.some.injEq,
      List.cons.injEq, and_true]
    omega
  | [b0, b1], h => by
    have h0 : b0 < 256 := h b0 (by simp)
    have h1 : b1 < 256 := h b1 (by simp)
    obtain ⟨d0, p0, _, _⟩ := encodeChar_spec ((b0 * 65536 + b1 * 256) / 262144 % 64) (by omega)
    obtain ⟨d1, p1, _, _⟩ := encodeChar_spec ((b0 * 65536 + b1 * 256) / 4096 % 64) (by omega)
    obtain ⟨d2, p2, _, _⟩ := encodeChar_spec ((b0 * 65536 + b1 * 256) / 64 % 64) (by omega)
    simp only [encodeQuanta, decodeQuanta, d0, d1, d2, p2, if_false, if_true, Option.some.injEq,
      List.cons.injEq, and_true]
    omega
  | b0 :: b1 :: b2 :: rest, h => by
    have h0 : b0 < 256 := h b0 (by simp)
    have h1 : b1 < 256 := h b1 (by simp)
    have h2 : b2 < 256 := h b2 (by simp)
    have hrest : Bytes.wellFormed rest := fun b hb => h b (by simp [hb])
    have ih := decodeQuanta_encodeQuanta rest hrest
    obtain ⟨d0, p0, _, _⟩ :=
      encodeChar_spec ((b0 * 65536 + b1 * 256 + b2) / 262144 % 64) (by omega)
    obtain ⟨d1, p1, _, _⟩ :=
      encodeChar_spec ((b0 * 65536 + b1 * 256 + b2) / 4096 % 64) (by omega)
    obtain ⟨d2, p2, _, _⟩ :=
      encodeChar_spec ((b0 * 65536 + b1 * 256 + b2) / 64 % 64) (by omega)
    obtain ⟨d3, p3, _, _⟩ :=
      encodeChar_spec ((b0 * 65536 + b1 * 256 + b2) % 64) (by omega)
    simp only [encodeQuanta, decodeQuanta, d0, d1, d2, d3, p2, p3, ih, if_false,
      Option.some.injEq, List.cons.injEq, and_true]
    omega

/-- No character written by the encoder is a line break. -/
theorem encodeQuanta_no_break :
    (bs : Bytes) → ∀ c ∈ encodeQuanta bs, (!(c = '\r' || c = '\n')) = true
  | [], _, hc => by simp [encodeQuanta] at hc
  | [b0], c, hc => by
    obtain ⟨_, _, q0, r0⟩ := encodeChar_spec (b0 * 65536 / 262144 % 64) (by omega)
    obtain ⟨_, _, q1, r1⟩ := encodeChar_spec (b0 * 65536 / 4096 % 64) (by omega)
    simp only [encodeQuanta, List.mem_cons, List.mem_singleton, List.not_mem_nil, or_false] at hc
    rcases hc with rfl | rfl | rfl | rfl <;> simp [*]
  | [b0, b1], c, hc => by
    obtain ⟨_, _, q0, r0⟩ := encodeChar_spec ((b0 * 65536 + b1 * 256) / 262144 % 64) (by omega)
    obtain ⟨_, _, q1, r1⟩ := encodeChar_spec ((b0 * 65536 + b1 * 256) / 4096 % 64) (by omega)
    obtain ⟨_, _, q2, r2⟩ := encodeChar_spec ((b0 * 65536 + b1 * 256) / 64 % 64) (by omega)
    simp only [encodeQuanta, List.mem_cons, List.mem_singleton, List.not_mem_nil, or_false] at hc
    rcases hc with rfl | rfl | rfl | rfl <;> simp [*]
  | b0 :: b1 :: b2 :: rest, c, hc => by
    have ih := encodeQuanta_no_break rest c
    obtain ⟨_, _, q0, r0⟩ :=
      encodeChar_spec ((b0 * 65536 + b1 * 256 + b2) / 262144 % 64) (by omega)
    obtain ⟨_, _, q1, r1⟩ :=
      encodeChar_spec ((b0 * 65536 + b1 * 256 + b2) / 4096 % 64) (by omega)
    obtain ⟨_, _, q2, r2⟩ :=
      encodeChar_spec ((b0 * 65536 + b1 * 256 + b2) / 64 % 64) (by omega)
    obtain ⟨_, _, q3, r3⟩ :=
      encodeChar_spec ((b0 * 65536 + b1 * 256 + b2) % 64) (by omega)
    simp only [encodeQuanta, List.mem_cons] at hc
    rcases hc with rfl | rfl | rfl | rfl | hc
    · simp [*]
    · simp [*]
    · simp [*]
    · simp [*]
    · exact ih hc

/-- Decoding the standard encoding of well-formed bytes gives the bytes back. -/
theorem decodeString_encodeToString (bs : Bytes) (h : Bytes.wellFormed bs) :
    DecodeString (EncodeToString bs) = some bs := by
  unfold DecodeString EncodeToString
  rw [List.filter_eq_self.2 (encodeQuanta_no_break bs)]
  exact decodeQuanta_encodeQuanta bs h

/-- The template parses; the action that prints the key is its eighth node and occurs
nowhere else. -/
theorem parse_provisioner_script :
    parseTemplate provisioner_script.data false [] = some templateNodes ∧
    templateNodes = templateNodes.take 7 ++ keyNode :: templateNodes.drop 8 ∧
    keyNode ∉ templateNodes.take 7 ∧ keyNode ∉ templateNodes.drop 8 := by
  decide!

/-- The nodes before and after the key print the golden script before and after its key. -/
theorem execute_around_key :
    executeTemplate (provisionerValues []) (templateNodes.take 7) = some scriptBeforeKey ∧
    executeTemplate (provisionerValues []) (templateNodes.drop 8) = some scriptAfterKey := by
  decide!

/-- The golden script is the script around the key with the key of the test in the middle,
and all its bytes are below 256. -/
theorem golden_script_split :
    renderedScript testKey = asciiBytes expected_provisioner_script ∧
    (∀ b ∈ scriptBeforeKey, b < 256) ∧ (∀ b ∈ scriptAfterKey, b < 256) ∧
    (∀ b ∈ testKey, b < 256) := by
  decide!

/-- The template, the golden script and the constants are ASCII, so that each of their
characters is one byte, its code. -/
theorem script_constants_ascii :
    (∀ c ∈ provisioner_script.data, c.toNat < 128) ∧
    (∀ c ∈ expected_provisioner_script.data, c.toNat < 128) ∧
    (∀ c ∈ ami_user.data ++ helm_src.data ++ kube_ver.data ++ minikube_src.data ++
      packages_list.data, c.toNat < 128) := by
  decide!

/-- The field of the data with a name other than the name of the key does not depend on the
key. -/
theorem lookup_of_ne_key (k : Bytes) (name : List Char) (h : TemplateNode.field name ≠ keyNode) :
    (provisionerValues k).lookup name = (provisionerValues []).lookup name := by
  have hne : name ≠ "Ssh_pub_key".data := by
    intro e
    exact h (by rw [e]; rfl)
  unfold provisioner_values.lookup
  simp only [provisionerValues, hne, if_false]

/-- Nodes that do not print the key give the same output whatever the key is. -/
theorem executeTemplate_of_no_key (k : Bytes) (nodes : List TemplateNode)
    (h : keyNode ∉ nodes) :
    executeTemplate (provisionerValues k) nodes = executeTemplate (provisionerValues []) nodes := by
  induction nodes with
  | nil => rfl
  | cons node rest ih =>
    have hrest : keyNode ∉ rest := fun hm => h (List.mem_cons_of_mem _ hm)
    have hnode : node ≠ keyNode := fun e => h (by rw [e]; exact List.mem_cons_self _ _)
    cases node with
    | text s => simp only [executeTemplate, ih hrest]
    | field name => simp only [executeTemplate, ih hrest, lookup_of_ne_key k name hnode]

theorem executeTemplate_text (values : provisioner_values) (s : List Char)
    (rest : List TemplateNode) (out : Bytes) (h : executeTemplate values rest = some out) :
    executeTemplate values (TemplateNode.text s :: rest) = some (s.map Char.toNat ++ out) := by
  simp only [executeTemplate, h]

theorem executeTemplate_field (values : provisioner_values) (name : List Char)
    (rest : List TemplateNode) (v out : Bytes) (hl : values.lookup name = some v)
    (h : executeTemplate values rest = some out) :
    executeTemplate values (TemplateNode.field name :: rest) = some (v ++ out) := by
  simp only [executeTemplate, hl, h]

/-- The output of a list of nodes followed by the key action and further nodes. -/
theorem executeTemplate_around (values : provisioner_values) (before after : List TemplateNode)
    (x y : Bytes) (hx : executeTemplate values before = some x)
    (hy : executeTemplate values after = some y) :
    executeTemplate values (before ++ keyNode :: after) = some (x ++ (values.Ssh_pub_key ++ y)) := by
  induction before generalizing x with
  | nil =>
    simp only [executeTemplate, Option.some.injEq] at hx
    subst hx
    have hl : values.lookup "Ssh_pub_key".data = some values.Ssh_pub_key := rfl
    rw [List.nil_append, List.nil_append]
    exact executeTemplate_field values _ after _ y hl hy
  | cons node rest ih =>
    cases node with
    | text s =>
      cases hr : executeTemplate values rest with
      | none => simp [executeTemplate, hr] at hx
      | some out =>
        rw [executeTemplate_text values s rest out hr] at hx
        injection hx with hx
        subst hx
        rw [List.cons_append, executeTemplate_text values s _ _ (ih out hr), List.append_assoc]
    | field name =>
      cases hl : values.lookup name with
      | none => simp [executeTemplate, hl] at hx
      | some v =>
        cases hr : executeTemplate values rest with
        | none => simp [executeTemplate, hl, hr] at hx
        | some out =>
          rw [executeTemplate_field values name rest v out hl hr] at hx
          injection hx with hx
          subst hx
          rw [List.cons_append, executeTemplate_field values name _ v _ hl (ih out hr),
            List.append_assoc]

/-- The template executed on the values of `get_provisioner` writes the script around the
key with the key in the middle. -/
theorem execute_provisioner_script (k : Bytes) :
    executeTemplate (provisionerValues k) templateNodes = some (renderedScript k) := by
  obtain ⟨_, hsplit, hb, ha⟩ := parse_provisioner_script
  obtain ⟨eb, ea⟩ := execute_around_key
  rw [hsplit]
  have hx := executeTemplate_of_no_key k _ hb
  have hy := executeTemplate_of_no_key k _ ha
  rw [eb] at hx
  rw [ea] at hy
  exact executeTemplate_around (provisionerValues k) _ _ _ _ hx hy

/-- What `get_provisioner` returns when the key file holds `k`. -/
theorem get_provisioner_eq (readFile : String → Option Bytes) (ssh_pub_key_path : String)
    (k : Bytes) (hread : readFile ssh_pub_key_path = some k) :
    get_provisioner readFile ssh_pub_key_path = some (EncodeToString (renderedScript k)) := by
  unfold get_provisioner
  simp only [hread, parse_provisioner_script.1, execute_provisioner_script k]

theorem renderedScript_wellFormed (k : Bytes) (hk : Bytes.wellFormed k) :
    Bytes.wellFormed (renderedScript k) := by
  obtain ⟨_, h1, h2, _⟩ := golden_script_split
  intro b hb
  simp only [renderedScript, List.mem_append] at hb
  rcases hb with hb | hb | hb
  · exact h1 b hb
  · exact hk b hb
  · exact h2 b hb

/-- C11: for every content `k` of the key file, `get_provisioner` returns a string whose
standard base64 decoding is the boot script for the user `ubuntu`, Kubernetes `v1.9.3`, the
fixed package list and source URLs, with `k` in the place of the key as it is; for the key
of the test, `asdf` and a newline, the decoded script is the golden script
`expected_provisioner_script` and the returned string is its base64 encoding. -/
theorem C11_provisioner_decodes_to_rendered_script (readFile : String → Option Bytes)
    (ssh_pub_key_path : String) (k : Bytes) (hread : readFile ssh_pub_key_path = some k)
    (hk : Bytes.wellFormed k) :
    (∃ provisioner_enc, get_provisioner readFile ssh_pub_key_path = some provisioner_enc ∧
      DecodeString provisioner_enc = some (renderedScript k)) ∧
    ami_user = "ubuntu" ∧ kube_ver = "v1.9.3" ∧
    renderedScript testKey = asciiBytes expected_provisioner_script ∧
    (k = testKey →
      get_provisioner readFile ssh_pub_key_path =
        some (EncodeToString (asciiBytes expected_provisioner_script)) ∧
      (get_provisioner readFile ssh_pub_key_path).bind DecodeString =
        some (asciiBytes expected_provisioner_script)) := by
  have hg := get_provisioner_eq readFile ssh_pub_key_path k hread
  have hd := decodeString_encodeToString _ (renderedScript_wellFormed k hk)
  refine ⟨⟨_, hg, hd⟩, rfl, rfl, golden_script_split.1, ?_⟩
  intro hkey
  rw [hkey, golden_script_split.1] at hg hd
  rw [hg, Option.some_bind]
  exact ⟨rfl, hd⟩

/-- C11 on the key file of the test. -/
theorem C11_provisioner_decodes_to_rendered_script_witness :
    fileWith testKey "./test_ssh_key" = some testKey ∧ Bytes.wellFormed testKey ∧
    (∃ provisioner_enc,
      get_provisioner (fileWith testKey) "./test_ssh_key" = some provisioner_enc ∧
      DecodeString provisioner_enc = some (renderedScript testKey)) ∧
    ami_user = "ubuntu" ∧ kube_ver = "v1.9.3" ∧
    renderedScript testKey = asciiBytes expected_provisioner_script ∧
    (testKey = testKey →
      get_provisioner (fileWith testKey) "./test_ssh_key" =
        some (EncodeToString (asciiBytes expected_provisioner_script)) ∧
      (get_provisioner (fileWith testKey) "./test_ssh_key").bind DecodeString =
        some (asciiBytes expected_provisioner_script)) :=
  ⟨rfl, golden_script_split.2.2.2,
   C11_provisioner_decodes_to_rendered_script (fileWith testKey) "./test_ssh_key" testKey rfl
     golden_script_split.2.2.2⟩

end Slipway
